import Mathlib

/-!
# BackendLearn, Day 2: product catalogue

A shallow embedding of `src/Day2/src/models/Product.js`,
`src/Day2/src/routes/productRoutes.js` and
`src/Day2/src/controllers/productController.js`.

Conventions of the embedding.

* JavaScript Numbers are `JSNum`: `NaN`, the two infinities and the finite values. A
  finite value is carried as the rational it denotes; numeric literals and subtraction
  round to binary64 (`roundBinary64`). There is no signed zero.
* Values of a JSON request body are `JVal`; arrays are not modelled and an object is
  a plain object whose contents are not inspected.
* Query-string parameters are absent or strings (`Option String`).
* Mongoose (casting, setters, defaults, validators, hooks, timestamps, query matching)
  is a library the repository calls; its behaviour is written out here for the schema
  declared in `Product.js`.
-/

set_option autoImplicit false

namespace BackendLearn

/-! ## JavaScript numbers -/

/-- A JavaScript Number: `NaN`, `-Infinity`, a finite value or `+Infinity`. -/
inductive JSNum where
  | nan
  | ninf
  | fin (q : ℚ)
  | pinf
  deriving DecidableEq

/-- Negation of a Number. -/
def JSNum.neg : JSNum → JSNum
  | .nan => .nan
  | .ninf => .pinf
  | .fin q => .fin (-q)
  | .pinf => .ninf

/-! ## Rounding to binary64 -/

/-- Number of binary digits, by halving at most `fuel` times. -/
def bitLength : Nat → Nat → Nat
  | 0, _ => 0
  | fuel + 1, n => if n = 0 then 0 else bitLength fuel (n / 2) + 1

/-- Number of binary digits of a natural number (0 for 0). -/
def bits (n : Nat) : Nat := bitLength n n

/-- Whether a rational is a finite binary64 value: `m * 2 ^ e` with `|m| < 2 ^ 53`,
`e >= -1074` and magnitude below `2 ^ 1024`. -/
def isBinary64 (q : ℚ) : Bool :=
  let n := q.num.natAbs
  let d := q.den
  (decide (2 ^ (bits d - 1) = d) && decide (bits d - 1 ≤ 1074)) &&
  (decide (n < 2 ^ 53) ||
    (decide (d = 1) && decide (n < 2 ^ 1024) && decide (n % 2 ^ (bits n - 53) = 0)))

/-- Floor of the binary logarithm of `n / d`, for positive `n` and `d`. -/
def floorLog2 (n d : Nat) : Int :=
  let t : Int := (bits n : Int) - (bits d : Int)
  if (2 : ℚ) ^ t * (d : ℚ) ≤ (n : ℚ) then t else t - 1

/-- The natural number nearest to a non-negative rational, ties to even. -/
def roundHalfEven (y : ℚ) : Nat :=
  let f := ⌊y⌋.toNat
  let r := y - (f : ℚ)
  if r < 1 / 2 then f else if 1 / 2 < r then f + 1 else if f % 2 = 0 then f else f + 1

/-- The binary64 value nearest to a positive rational (ties to even), `+Infinity` from
`2 ^ 1024 - 2 ^ 970` on: 53 significant bits, exponent not below -1074. -/
def roundPositive (x : ℚ) : JSNum :=
  let e : Int := max (floorLog2 x.num.natAbs x.den - 52) (-1074)
  let v : ℚ := (roundHalfEven (x / (2 : ℚ) ^ e) : ℚ) * (2 : ℚ) ^ e
  if (2 : ℚ) ^ (1024 : Int) ≤ v then .pinf else .fin v

/-- Rounding of an exact value to binary64, the way every arithmetic operation and
every numeric literal is rounded. -/
def roundBinary64 (x : ℚ) : JSNum :=
  if isBinary64 x then .fin x
  else if 0 < x then roundPositive x else (roundPositive (-x)).neg

namespace JSNum

/-- The operator `a < b` on two Numbers; false as soon as one side is `NaN`. -/
def lt : JSNum → JSNum → Bool
  | fin a, fin b => decide (a < b)
  | ninf, fin _ => true
  | ninf, pinf => true
  | fin _, pinf => true
  | _, _ => false

/-- The operator `a > b`. -/
def gt (a b : JSNum) : Bool := lt b a

/-- Whether the Number is `NaN`. -/
def isNaN : JSNum → Bool
  | nan => true
  | _ => false

/-- The operator `a <= b`: neither side is `NaN` and `b < a` is false. -/
def le (a b : JSNum) : Bool := !a.isNaN && !b.isNaN && !lt b a

/-- The operator `a >= b`. -/
def ge (a b : JSNum) : Bool := le b a

/-- The operator `a === b` on two Numbers (`NaN` equals nothing). -/
def strictEq : JSNum → JSNum → Bool
  | nan, _ => false
  | _, nan => false
  | a, b => decide (a = b)

/-- The operator `a - b` on two Numbers: the exact difference, rounded to binary64. -/
def sub : JSNum → JSNum → JSNum
  | nan, _ => nan
  | _, nan => nan
  | fin a, fin b => roundBinary64 (a - b)
  | fin _, pinf => ninf
  | fin _, ninf => pinf
  | pinf, pinf => nan
  | pinf, _ => pinf
  | ninf, ninf => nan
  | ninf, _ => ninf

/-- The function `Number.isInteger`. -/
def isInteger : JSNum → Bool
  | fin q => decide (q.den = 1)
  | _ => false

end JSNum

/-! ## JavaScript strings -/

/-- White space and line terminators, the characters `String.prototype.trim` and
`Number(string)` strip. -/
def isJSWhiteSpace (c : Char) : Bool :=
  let n := c.toNat
  n = 0x09 || n = 0x0A || n = 0x0B || n = 0x0C || n = 0x0D || n = 0x20 || n = 0xA0 ||
  n = 0x1680 || (0x2000 ≤ n && n ≤ 0x200A) || n = 0x2028 || n = 0x2029 || n = 0x202F ||
  n = 0x205F || n = 0x3000 || n = 0xFEFF

/-- Strip white space at both ends of a character list. -/
def trimChars (cs : List Char) : List Char :=
  ((cs.dropWhile isJSWhiteSpace).reverse.dropWhile isJSWhiteSpace).reverse

/-- The method `s.trim()`. -/
def jsTrim (s : String) : String := String.mk (trimChars s.toList)

/-- Number of UTF-16 code units of a character. -/
def utf16Units (c : Char) : Nat := if c.toNat < 0x10000 then 1 else 2

/-- Length in UTF-16 code units of a character list. -/
def unitsLength (cs : List Char) : Nat := (cs.map utf16Units).sum

/-- The property `s.length` (UTF-16 code units). -/
def jsLength (s : String) : Nat := unitsLength s.toList

/-! ## `Number(string)` -/

/-- Value of a digit in a radix up to 16, if the character is one. -/
def digitValue (radix : Nat) (c : Char) : Option Nat :=
  let n := c.toNat
  let v := if 48 ≤ n && n ≤ 57 then n - 48
    else if 97 ≤ n && n ≤ 102 then n - 87
    else if 65 ≤ n && n ≤ 70 then n - 55
    else 16
  if v < radix then some v else none

/-- Value of a non-empty digit sequence in the given radix. -/
def parseRadix (radix : Nat) (cs : List Char) : Option Nat :=
  if cs.isEmpty then none
  else cs.foldl (fun acc c => acc.bind (fun n => (digitValue radix c).map (fun v => radix * n + v)))
    (some 0)

/-- Value of a sequence of decimal digits (0 for the empty sequence). -/
def digitsToNat (ds : List Char) : Nat :=
  ds.foldl (fun n c => 10 * n + (c.toNat - 48)) 0

/-- The number `m * 10 ^ e`. -/
def scale10 (m : Nat) (e : Int) : ℚ :=
  if 0 ≤ e then ((m * 10 ^ e.toNat : Nat) : ℚ) else (m : ℚ) / ((10 ^ (-e).toNat : Nat) : ℚ)

/-- The exponent part of a decimal literal: nothing, or `e`/`E`, an optional sign and
at least one digit. -/
def parseExponent : List Char → Option Int
  | [] => some 0
  | c :: rest =>
    if c = 'e' || c = 'E' then
      let signed : Bool × List Char :=
        match rest with
        | '+' :: r => (false, r)
        | '-' :: r => (true, r)
        | r => (false, r)
      if !signed.2.isEmpty && signed.2.all Char.isDigit then
        some (if signed.1 then -(digitsToNat signed.2 : Int) else (digitsToNat signed.2 : Int))
      else none
    else none

/-- The exact value of an unsigned decimal literal: `digits`, `digits.`,
`digits.digits` or `.digits`, followed by an optional exponent part. -/
def parseUnsignedDecimal (cs : List Char) : Option ℚ :=
  let ip := cs.span Char.isDigit
  let fp : List Char × List Char :=
    match ip.2 with
    | '.' :: r => r.span Char.isDigit
    | r => ([], r)
  if ip.1.isEmpty && fp.1.isEmpty then none
  else (parseExponent fp.2).map (fun e => scale10 (digitsToNat (ip.1 ++ fp.1)) (e - fp.1.length))

/-- A decimal literal without its sign: `Infinity`, or an unsigned decimal literal,
whose exact value is rounded to binary64. -/
def parseMagnitude (cs : List Char) : Option JSNum :=
  if cs = "Infinity".toList then some JSNum.pinf
  else (parseUnsignedDecimal cs).map roundBinary64

/-- The conversion of trimmed text to a Number: the empty text is 0, then the
hexadecimal, octal and binary integer literals, then the signed decimal literals, each
rounded to binary64; anything else is `NaN`. -/
def numberOfChars : List Char → JSNum
  | [] => .fin 0
  | '0' :: 'x' :: r => ((parseRadix 16 r).map (fun n => roundBinary64 n)).getD .nan
  | '0' :: 'X' :: r => ((parseRadix 16 r).map (fun n => roundBinary64 n)).getD .nan
  | '0' :: 'o' :: r => ((parseRadix 8 r).map (fun n => roundBinary64 n)).getD .nan
  | '0' :: 'O' :: r => ((parseRadix 8 r).map (fun n => roundBinary64 n)).getD .nan
  | '0' :: 'b' :: r => ((parseRadix 2 r).map (fun n => roundBinary64 n)).getD .nan
  | '0' :: 'B' :: r => ((parseRadix 2 r).map (fun n => roundBinary64 n)).getD .nan
  | '+' :: r => (parseMagnitude r).getD .nan
  | '-' :: r => ((parseMagnitude r).map JSNum.neg).getD .nan
  | cs => (parseMagnitude cs).getD .nan

/-- The call `Number(s)` on a string. -/
def stringToNumber (s : String) : JSNum := numberOfChars (trimChars s.toList)

/-! ## `String(number)` -/

/-- Number of decimal digits of a natural number (0 for 0). -/
def decimalLength (n : Nat) : Nat := if n = 0 then 0 else (Nat.toDigits 10 n).length

/-- Floor of the decimal logarithm of `n / d`, for positive `n` and `d`. -/
def floorLog10 (n d : Nat) : Int :=
  let t : Int := (decimalLength n : Int) - (decimalLength d : Int)
  if (10 : ℚ) ^ t * (d : ℚ) ≤ (n : ℚ) then t else t - 1

/-- A decimal `s * 10 ^ e` with `k` significant digits that reads back as `x`, if one
of the two such decimals around `x` does: the closer one, the even one on a tie. -/
def decimalCandidate (x : ℚ) (p : Int) (k : Nat) : Option (Nat × Int) :=
  let e : Int := p + 1 - (k : Int)
  let lo : Nat := ⌊x / (10 : ℚ) ^ e⌋.toNat
  let okLo : Bool := decide (roundBinary64 ((lo : ℚ) * (10 : ℚ) ^ e) = .fin x)
  let okHi : Bool := decide (roundBinary64 (((lo + 1 : Nat) : ℚ) * (10 : ℚ) ^ e) = .fin x)
  let dLo : ℚ := x - (lo : ℚ) * (10 : ℚ) ^ e
  let dHi : ℚ := ((lo + 1 : Nat) : ℚ) * (10 : ℚ) ^ e - x
  if okLo && okHi then
    if dLo < dHi then some (lo, e)
    else if dHi < dLo then some (lo + 1, e)
    else if lo % 2 = 0 then some (lo, e) else some (lo + 1, e)
  else if okLo then some (lo, e)
  else if okHi then some (lo + 1, e)
  else none

/-- The shortest decimal that reads back as the positive number `x` (17 digits are
enough for a binary64 value; the nearest 17-digit decimal otherwise). -/
def shortestDecimal (x : ℚ) : Nat × Int :=
  let p := floorLog10 x.num.natAbs x.den
  match (List.range 17).findSome? (fun i => decimalCandidate x p (i + 1)) with
  | some r => r
  | none => (roundHalfEven (x / (10 : ℚ) ^ (p - 16)), p - 16)

/-- Drop the trailing zeros of a digit list. -/
def stripZeros (ds : List Char) : List Char := (ds.reverse.dropWhile (fun c => c = '0')).reverse

/-- The text of a positive number from its digits `ds` and the position `n` of the
decimal point (the value is `0.ds * 10 ^ n`), as `Number::toString` lays it out. -/
def layoutDecimal (ds : List Char) (n : Int) : String :=
  let k : Int := ds.length
  if k ≤ n ∧ n ≤ 21 then String.mk (ds ++ List.replicate (n - k).toNat '0')
  else if 0 < n ∧ n ≤ 21 then String.mk (ds.take n.toNat ++ '.' :: ds.drop n.toNat)
  else if -6 < n ∧ n ≤ 0 then String.mk ('0' :: '.' :: List.replicate (-n).toNat '0' ++ ds)
  else
    let e : Int := n - 1
    let tail : String := (if e < 0 then "e-" else "e+") ++ toString e.natAbs
    if ds.length = 1 then String.mk ds ++ tail
    else String.mk (ds.take 1 ++ '.' :: ds.drop 1) ++ tail

/-- The text of a positive number. -/
def positiveToString (x : ℚ) : String :=
  let r := shortestDecimal x
  let ds := Nat.toDigits 10 r.1
  layoutDecimal (stripZeros ds) (r.2 + (ds.length : Int))

/-- The text of a Number, as `String(n)` gives it. -/
def numberToString : JSNum → String
  | .nan => "NaN"
  | .pinf => "Infinity"
  | .ninf => "-Infinity"
  | .fin q =>
    if q = 0 then "0"
    else if q < 0 then "-" ++ positiveToString (-q)
    else positiveToString q

/-! ## JSON values of a request body -/

/-- A value of a field of `req.body`: absent, `null`, a boolean, a number, a string or
a plain object. -/
inductive JVal where
  | undefined
  | null
  | bool (b : Bool)
  | num (n : JSNum)
  | str (s : String)
  | obj
  deriving DecidableEq

namespace JVal

/-- Truthiness: what `!v` negates. -/
def truthy : JVal → Bool
  | undefined => false
  | null => false
  | bool b => b
  | num n => !n.isNaN && !JSNum.strictEq n (.fin 0)
  | str s => !s.toList.isEmpty
  | obj => true

/-- The abstract operation ToNumber, used by `<` against a Number. -/
def toNumber : JVal → JSNum
  | undefined => .nan
  | null => .fin 0
  | bool b => if b then .fin 1 else .fin 0
  | num n => n
  | str s => stringToNumber s
  | obj => .nan

end JVal

/-- The fields of `req.body` the application reads. -/
structure Body where
  name : JVal := .undefined
  description : JVal := .undefined
  price : JVal := .undefined
  quantity : JVal := .undefined
  category : JVal := .undefined
  inStock : JVal := .undefined

/-! ## `validateProduct` (routes/productRoutes.js) -/

/-- What a middleware does: call `next()`, answer with a status and a JSON body
`{success: false, error, details}`, or raise an exception. -/
inductive Middleware where
  | next
  | respond (status : Nat) (error : String) (details : List String)
  | throws (message : String)
  deriving DecidableEq

/-- The test `!v || v.trim().length < min`; calling `.trim` on a truthy value that is
not a string raises a `TypeError`. -/
def tooShort (v : JVal) (min : Nat) : Except String Bool :=
  if !v.truthy then .ok true
  else
    match v with
    | .str s => .ok (decide (jsLength (jsTrim s) < min))
    | _ => .error "TypeError: trim is not a function"

/-- The test `price === undefined || price < 0`. -/
def priceRejected (price : JVal) : Bool :=
  decide (price = .undefined) || JSNum.lt price.toNumber (.fin 0)

/-- The middleware `validateProduct`. -/
def validateProduct (body : Body) : Middleware :=
  match tooShort body.name 2 with
  | .error e => .throws e
  | .ok nameBad =>
    match tooShort body.description 10 with
    | .error e => .throws e
    | .ok descriptionBad =>
      let errors : List String :=
        (if nameBad then ["Name must be at least 2 characters"] else []) ++
        (if descriptionBad then ["Description must be at least 10 characters"] else []) ++
        (if priceRejected body.price then ["Price must be a non-negative number"] else []) ++
        (if !body.category.truthy then ["Category is required"] else [])
      if errors.length > 0 then .respond 400 "Validation failed" errors else .next

/-! ## The Product model (models/Product.js) -/

/-- A persisted product document. `inStock` is `none` when the stored value is `null`. -/
structure Product where
  id : Nat
  name : String
  description : String
  price : JSNum
  quantity : JSNum
  category : String
  inStock : Option Bool
  createdAt : Nat
  updatedAt : Nat
  deriving DecidableEq

/-- The collection, the counter the next identifier is drawn from, and the clock the
timestamps are read from. -/
structure Store where
  docs : List Product
  nextId : Nat
  now : Nat
  deriving DecidableEq

/-- Result of casting a supplied value to the type of a schema path. -/
inductive Cast (α : Type) where
  | absent
  | null
  | val (a : α)
  | bad
  deriving DecidableEq

/-- Mongoose cast to `String`, after the `trim` setter where the path declares it. -/
def castString (trim : Bool) : JVal → Cast String
  | .undefined => .absent
  | .null => .null
  | .str s => .val (if trim then jsTrim s else s)
  | .num n => .val (numberToString n)
  | .bool b => .val (if b then "true" else "false")
  | .obj => .bad

/-- Mongoose cast to `Number`: the empty string is `null`, `NaN` is a cast error. -/
def castNumber : JVal → Cast JSNum
  | .undefined => .absent
  | .null => .null
  | .str s =>
    if s.toList.isEmpty then .null
    else if (stringToNumber s).isNaN then .bad else .val (stringToNumber s)
  | .num n => if n.isNaN then .bad else .val n
  | .bool b => .val (if b then .fin 1 else .fin 0)
  | .obj => .bad

/-- Mongoose cast to `Boolean`. -/
def castBoolean : JVal → Cast Bool
  | .undefined => .absent
  | .null => .null
  | .bool b => .val b
  | .str s =>
    if s = "true" || s = "1" || s = "yes" then .val true
    else if s = "false" || s = "0" || s = "no" then .val false
    else .bad
  | .num n => if n = .fin 1 then .val true else if n = .fin 0 then .val false else .bad
  | .obj => .bad

/-- The values of the schema paths after casting. -/
structure Draft where
  name : Cast String
  description : Cast String
  price : Cast JSNum
  quantity : Cast JSNum
  category : Cast String
  inStock : Cast Bool

/-- Cast the fields of a body by the schema (`name` and `category` have `trim: true`). -/
def castBody (body : Body) : Draft :=
  { name := castString true body.name
    description := castString false body.description
    price := castNumber body.price
    quantity := castNumber body.quantity
    category := castString true body.category
    inStock := castBoolean body.inStock }

/-- Put a schema default in place of an absent value. -/
def withDefault {α : Type} (d : α) : Cast α → Cast α
  | .absent => .val d
  | c => c

/-- The document `new Product(body)`: cast values, `quantity` defaulting to 0 and
`inStock` to `true`. -/
def newDocument (body : Body) : Draft :=
  let d := castBody body
  { d with quantity := withDefault (.fin 0) d.quantity, inStock := withDefault true d.inStock }

/-- The enum of `category`. -/
def categories : List String :=
  ["electronics", "clothing", "books", "home", "sports", "other"]

/-- Message of the enum validator of `category`. -/
def categoryMessage : String :=
  "Invalid category. Must be one of: electronics, clothing, books, home, sports, other"

/-- Message of a cast error (the rendering of the offending value is left out). -/
def castMessage (kind path : String) : String :=
  "Cast to " ++ kind ++ " failed at path " ++ path

/-- Cast error of one path, if any. -/
def castError {α : Type} (kind path : String) : Cast α → List String
  | .bad => [castMessage kind path]
  | _ => []

/-- Validators of `name`: required, minlength 2, maxlength 100. -/
def nameErrors : Cast String → List String
  | .val s =>
    if jsLength s = 0 then ["Product name is required"]
    else if jsLength s < 2 then ["Name must be at least 2 characters"]
    else if 100 < jsLength s then ["Name cannot exceed 100 characters"]
    else []
  | .bad => []
  | _ => ["Product name is required"]

/-- Validators of `description`: required, minlength 10, maxlength 1000. -/
def descriptionErrors : Cast String → List String
  | .val s =>
    if jsLength s = 0 then ["Product description is required"]
    else if jsLength s < 10 then ["Description must be at least 10 characters"]
    else if 1000 < jsLength s then ["Description cannot exceed 1000 characters"]
    else []
  | .bad => []
  | _ => ["Product description is required"]

/-- Validators of `price`: required, min 0, `Number.isInteger`. -/
def priceErrors : Cast JSNum → List String
  | .val n =>
    if !JSNum.ge n (.fin 0) then ["Price cannot be negative"]
    else if !n.isInteger then ["Price must be an integer"]
    else []
  | .bad => []
  | _ => ["Product price is required"]

/-- Validators of `quantity`: required, min 0. -/
def quantityErrors : Cast JSNum → List String
  | .val n => if !JSNum.ge n (.fin 0) then ["Quantity cannot be negative"] else []
  | .bad => []
  | _ => ["Product quantity is required"]

/-- Validators of `category`: required, enum. -/
def categoryErrors : Cast String → List String
  | .val s =>
    if jsLength s = 0 then ["Product category is required"]
    else if !categories.contains s then [categoryMessage]
    else []
  | .bad => []
  | _ => ["Product category is required"]

/-- The cast errors of a draft, in path order. -/
def castErrors (d : Draft) : List String :=
  castError "string" "name" d.name ++ castError "string" "description" d.description ++
  castError "Number" "price" d.price ++ castError "Number" "quantity" d.quantity ++
  castError "string" "category" d.category ++ castError "Boolean" "inStock" d.inStock

/-- The validator errors of a whole document, in path order (`inStock` has none). -/
def validatorErrors (d : Draft) : List String :=
  nameErrors d.name ++ descriptionErrors d.description ++ priceErrors d.price ++
  quantityErrors d.quantity ++ categoryErrors d.category

/-- The messages of the `ValidationError` of a document; empty when it is valid. -/
def validationErrors (d : Draft) : List String := castErrors d ++ validatorErrors d

/-- The stored form of a draft whose required paths all hold a value. -/
def Draft.toProduct (d : Draft) (id now : Nat) : Option Product :=
  match d.name, d.description, d.price, d.quantity, d.category with
  | .val n, .val ds, .val pr, .val q, .val c =>
    some { id := id, name := n, description := ds, price := pr, quantity := q, category := c
           inStock := (match d.inStock with
             | .val b => some b
             | _ => none)
           createdAt := now, updatedAt := now }
  | _, _, _, _, _ => none

/-- The paths of a stored document, as values to validate (a `NaN` is what a failed
assignment cast leaves). -/
def Product.toDraft (p : Product) : Draft :=
  { name := .val p.name
    description := .val p.description
    price := if p.price.isNaN then .bad else .val p.price
    quantity := if p.quantity.isNaN then .bad else .val p.quantity
    category := .val p.category
    inStock := (match p.inStock with
      | some b => .val b
      | none => .null) }

/-- The virtual `isLowStock`: `this.quantity > 0 && this.quantity < 10`. -/
def Product.isLowStock (p : Product) : Bool :=
  JSNum.gt p.quantity (.fin 0) && JSNum.lt p.quantity (.fin 10)

/-- The `pre('save')` hook: `inStock` is false when `quantity === 0`, true otherwise. -/
def preSave (p : Product) : Product :=
  if JSNum.strictEq p.quantity (.fin 0) then { p with inStock := some false }
  else { p with inStock := some true }

/-- The call `Product.create(body)`: build the document, validate it, run the pre-save
hook, insert it. On failure the messages of the `ValidationError` are returned. -/
def Product.create (st : Store) (body : Body) : Except (List String) (Product × Store) :=
  let d := newDocument body
  if validationErrors d ≠ [] then .error (validationErrors d)
  else
    match d.toProduct st.nextId st.now with
    | none => .error []
    | some p =>
      let saved := preSave p
      .ok (saved, { st with docs := st.docs ++ [saved], nextId := st.nextId + 1 })

/-- What a document method leaves behind: the in-memory document, the store, and the
error it raised or rejected with (`none` when it succeeded). -/
structure Outcome where
  doc : Product
  store : Store
  failure : Option String
  deriving DecidableEq

/-- The call `doc.save()` on a loaded document `old` whose in-memory state is `doc`:
validation, the timestamps hook (`updatedAt` moves when the document was modified), the
pre-save hook, then the write of the document with that identifier. -/
def save (st : Store) (old doc : Product) : Outcome :=
  match validationErrors doc.toDraft with
  | e :: _ => { doc := doc, store := st, failure := some ("ValidationError: " ++ e) }
  | [] =>
    let stamped := if doc ≠ old then { doc with updatedAt := st.now } else doc
    let saved := preSave stamped
    if st.docs.any (fun d => d.id = saved.id) then
      { doc := saved
        store := { st with docs := st.docs.map (fun d => if d.id = saved.id then saved else d) }
        failure := none }
    else { doc := saved, store := st, failure := some "DocumentNotFoundError" }

/-- The instance method `reduceStock(amount)`. -/
def reduceStock (st : Store) (p : Product) (amount : JSNum) : Outcome :=
  if JSNum.lt p.quantity amount then
    { doc := p, store := st, failure := some "Insufficient stock" }
  else
    let p1 := { p with quantity := JSNum.sub p.quantity amount }
    let p2 := if JSNum.strictEq p1.quantity (.fin 0) then { p1 with inStock := some false } else p1
    save st p p2

/-- The predicate of `findLowStock`: `{ quantity: { $gt: 0, $lte: 10 } }`. -/
def lowStockQuery (p : Product) : Bool :=
  JSNum.gt p.quantity (.fin 0) && JSNum.le p.quantity (.fin 10)

/-- The static `findLowStock()`. -/
def findLowStock (docs : List Product) : List Product := docs.filter lowStockQuery

/-- The static `findByCategory(category)`: `{ category, inStock: true }`, the category
trimmed by the cast of the filter. -/
def findByCategory (docs : List Product) (category : String) : List Product :=
  docs.filter (fun p => decide (p.category = jsTrim category) && decide (p.inStock = some true))

/-! ## Write handlers (controllers/productController.js) -/

/-- The `details` field of a JSON answer: missing, a text, or a list of messages. -/
inductive Details where
  | none
  | text (s : String)
  | list (l : List String)
  deriving DecidableEq

/-- The JSON answer of a handler that returns one product. -/
structure ProductReply where
  status : Nat
  success : Bool
  message : Option String := none
  error : Option String := none
  details : Details := .none
  data : Option Product := none
  deriving DecidableEq

/-- The handler `createProduct`. (The 500 branch answers errors that are not a
`ValidationError`, that is failures of the database itself, which the store does not
have.) -/
def createProduct (st : Store) (body : Body) : ProductReply × Store :=
  match Product.create st body with
  | .ok (p, st') =>
    ({ status := 201, success := true, message := some "Product created successfully"
       data := some p }, st')
  | .error messages =>
    ({ status := 400, success := false, error := some "Validation failed"
       details := .list messages }, st)

/-- What a route does with a request: answer, or let an exception escape. -/
inductive Handled where
  | replied (r : ProductReply)
  | raised (message : String)
  deriving DecidableEq

/-- The answer a middleware sends. -/
def middlewareReply (status : Nat) (error : String) (details : List String) : ProductReply :=
  { status := status, success := false, error := some error, details := .list details }

/-- The route `POST /api/products`: `validateProduct`, then `createProduct`. -/
def postProduct (st : Store) (body : Body) : Handled × Store :=
  match validateProduct body with
  | .throws m => (.raised m, st)
  | .respond status error details => (.replied (middlewareReply status error details), st)
  | .next => (.replied (createProduct st body).1, (createProduct st body).2)

/-- The `:id` parameter of a route: text that is no ObjectId, or an identifier. -/
inductive ReqId where
  | malformed
  | oid (n : Nat)
  deriving DecidableEq

/-- Run the validators of a path only when the update sets it. -/
def onPresent {α : Type} (f : Cast α → List String) : Cast α → List String
  | .absent => []
  | c => f c

/-- The update validators (`runValidators: true`): the validators of the paths the
update sets. -/
def updateErrors (d : Draft) : List String :=
  onPresent nameErrors d.name ++ onPresent descriptionErrors d.description ++
  onPresent priceErrors d.price ++ onPresent quantityErrors d.quantity ++
  onPresent categoryErrors d.category

/-- The document after `$set` of the cast update; `updatedAt` is moved by the
timestamps option. No `save` hook runs on this path. -/
def applyUpdate (p : Product) (d : Draft) (now : Nat) : Product :=
  { p with
    name := (match d.name with
      | .val s => s
      | _ => p.name)
    description := (match d.description with
      | .val s => s
      | _ => p.description)
    price := (match d.price with
      | .val n => n
      | _ => p.price)
    quantity := (match d.quantity with
      | .val n => n
      | _ => p.quantity)
    category := (match d.category with
      | .val s => s
      | _ => p.category)
    inStock := (match d.inStock with
      | .val b => some b
      | .null => none
      | _ => p.inStock)
    updatedAt := now }

/-- The ways `findByIdAndUpdate` fails. -/
inductive UpdateError where
  | objectId
  | cast (message : String)
  | validation (messages : List String)
  deriving DecidableEq

/-- The call `Product.findByIdAndUpdate(id, body, { new: true, runValidators: true })`:
cast the identifier, cast the update, run the update validators, then replace the
document with that identifier and return its new state (`none` when there is none). -/
def findByIdAndUpdate (st : Store) (id : ReqId) (body : Body) :
    Except UpdateError (Option Product × Store) :=
  match id with
  | .malformed => .error .objectId
  | .oid n =>
    let d := castBody body
    match castErrors d with
    | e :: _ => .error (.cast e)
    | [] =>
      if updateErrors d ≠ [] then .error (.validation (updateErrors d))
      else
        match st.docs.find? (fun p => p.id = n) with
        | none => .ok (none, st)
        | some p =>
          let updated := applyUpdate p d st.now
          .ok (some updated,
            { st with docs := st.docs.map (fun x => if x.id = n then updated else x) })

/-- Text of an identifier in a message. -/
def ReqId.text : ReqId → String
  | .malformed => "?"
  | .oid n => toString n

/-- The handler `updateProduct`. -/
def updateProduct (st : Store) (id : ReqId) (body : Body) : ProductReply × Store :=
  match findByIdAndUpdate st id body with
  | .ok (none, st') =>
    ({ status := 404, success := false
       error := some ("Product with id " ++ id.text ++ " not found") }, st')
  | .ok (some p, st') =>
    ({ status := 200, success := true, message := some "Product updated successfully"
       data := some p }, st')
  | .error .objectId =>
    ({ status := 400, success := false, error := some "Invalid product ID format" }, st)
  | .error (.validation messages) =>
    ({ status := 400, success := false, error := some "Validation failed"
       details := .list messages }, st)
  | .error (.cast m) =>
    ({ status := 500, success := false, error := some "Failed to update product"
       details := .text m }, st)

/-- The route `PUT /api/products/:id`: `validateProduct`, then `updateProduct`. -/
def putProduct (st : Store) (id : ReqId) (body : Body) : Handled × Store :=
  match validateProduct body with
  | .throws m => (.raised m, st)
  | .respond status error details => (.replied (middlewareReply status error details), st)
  | .next => (.replied (updateProduct st id body).1, (updateProduct st id body).2)

/-! ## `getAllProducts` -/

/-- The query-string parameters `getAllProducts` reads. -/
structure Query where
  category : Option String := none
  minPrice : Option String := none
  maxPrice : Option String := none
  inStock : Option String := none
  limit : Option String := none
  skip : Option String := none
  deriving DecidableEq

/-- A condition `{ $gte, $lte }` on a numeric path. -/
structure Range where
  gte : Option JSNum := none
  lte : Option JSNum := none
  deriving DecidableEq

/-- The filter object `getAllProducts` builds. -/
structure Filter where
  category : Option String := none
  price : Option Range := none
  inStock : Option Bool := none
  deriving DecidableEq

/-- Truthiness of a query parameter: present and not the empty string. -/
def present (v : Option String) : Bool :=
  match v with
  | some s => !s.toList.isEmpty
  | none => false

/-- The filter built from the query (lines 17 to 26 of the controller). -/
def buildFilter (q : Query) : Filter :=
  { category := if present q.category then q.category else none
    price :=
      if present q.minPrice || present q.maxPrice then
        some { gte := if present q.minPrice then q.minPrice.map stringToNumber else none
               lte := if present q.maxPrice then q.maxPrice.map stringToNumber else none }
      else none
    inStock := (match q.inStock with
      | none => none
      | some s => some (decide (s = "true"))) }

/-- The pair `{ limit: Number(limit), skip: Number(skip) }`. -/
structure Pagination where
  limit : JSNum
  skip : JSNum
  deriving DecidableEq

/-- The pagination applied and reported: `limit = 10` and `skip = 0` are the
destructuring defaults, `Number(...)` coerces what was supplied. -/
def pagination (q : Query) : Pagination :=
  { limit := (match q.limit with
      | none => .fin 10
      | some s => stringToNumber s)
    skip := (match q.skip with
      | none => .fin 0
      | some s => stringToNumber s) }

/-- Whether a price satisfies a range condition. -/
def Range.holds (r : Range) (price : JSNum) : Bool :=
  (match r.gte with
    | none => true
    | some g => JSNum.ge price g) &&
  (match r.lte with
    | none => true
    | some l => JSNum.le price l)

/-- Whether a product matches a filter. The filter is cast through the schema first,
so the `trim` setter of `category` applies to the text compared. -/
def matchesFilter (f : Filter) (p : Product) : Bool :=
  (match f.category with
    | none => true
    | some c => decide (p.category = jsTrim c)) &&
  (match f.price with
    | none => true
    | some r => r.holds p.price) &&
  (match f.inStock with
    | none => true
    | some b => decide (p.inStock = some b))

/-- The documents `Product.find(filter)` selects. -/
def find (f : Filter) (docs : List Product) : List Product := docs.filter (matchesFilter f)

/-- The call `Product.countDocuments(filter)`. -/
def countDocuments (f : Filter) (docs : List Product) : Nat := (find f docs).length

/-- The order `.sort({ createdAt: -1 })`: newest first. -/
def sortNewestFirst (docs : List Product) : List Product :=
  docs.insertionSort (fun a b => b.createdAt ≤ a.createdAt)

/-- The cast of the filter by the schema: a `NaN` bound on `price` is a cast error. -/
def filterCastError (f : Filter) : Option String :=
  match f.price with
  | none => none
  | some r =>
    if (r.gte.getD (.fin 0)).isNaN || (r.lte.getD (.fin 0)).isNaN then
      some (castMessage "Number" "price")
    else none

/-- The cursor stage `.limit(l).skip(s)` of a query, run by the database: from the
selected, sorted documents it returns a page of them or fails. How it treats each pair
of numbers is left to the database; a page holds only selected documents. -/
structure Cursor where
  page : JSNum → JSNum → List Product → Except String (List Product)
  sound : ∀ l s xs ys, page l s xs = .ok ys → ys.Sublist xs

/-- The object `getAllProducts` hands to `res.json` (in the JSON text a `NaN` or an
infinity is written `null`). -/
structure ListReply where
  status : Nat
  success : Bool
  count : Option Nat := none
  total : Option Nat := none
  pagination : Option Pagination := none
  data : Option (List Product) := none
  error : Option String := none
  details : Option String := none
  deriving DecidableEq

/-- The handler `getAllProducts`. -/
def getAllProducts (db : Cursor) (st : Store) (q : Query) : ListReply :=
  let filter := buildFilter q
  let failed (m : String) : ListReply :=
    { status := 500, success := false, error := some "Failed to fetch products"
      details := some m }
  match filterCastError filter with
  | some m => failed m
  | none =>
    match db.page (pagination q).limit (pagination q).skip
        (sortNewestFirst (find filter st.docs)) with
    | .error m => failed m
    | .ok products =>
      { status := 200, success := true, count := some products.length
        total := some (countDocuments filter st.docs), pagination := some (pagination q)
        data := some products }

/-- The function `Number.isSafeInteger`: an integer of magnitude below `2 ^ 53`. -/
def JSNum.isSafeInteger : JSNum → Bool
  | .fin q => decide (q.den = 1) && decide (q.num.natAbs < 2 ^ 53)
  | _ => false

/-- A cursor over an in-memory list: a limit of 0 is no limit, a negative limit is
read as its absolute value, and a limit that is no safe integer or a skip that is no
non-negative safe integer is refused. -/
def listPage (l s : JSNum) (xs : List Product) : Except String (List Product) :=
  match l, s with
  | .fin a, .fin b =>
    if l.isSafeInteger = true ∧ s.isSafeInteger = true ∧ 0 ≤ b then
      .ok (if a = 0 then xs.drop b.num.toNat else (xs.drop b.num.toNat).take a.num.natAbs)
    else .error "bad pagination"
  | _, _ => .error "bad pagination"

/-- The in-memory cursor as a `Cursor`. -/
def listCursor : Cursor where
  page := listPage
  sound := by
    intro l s xs ys h
    unfold listPage at h
    split at h
    · split at h
      · injection h with h
        subst h
        split
        · exact List.drop_sublist _ _
        · exact (List.take_sublist _ _).trans (List.drop_sublist _ _)
      · cases h
    · cases h

/-- A numeric query parameter: non-empty text that `Number()` does not turn into
`NaN`. -/
def numericText (s : String) : Bool := !s.toList.isEmpty && !(stringToNumber s).isNaN

/-- A value on which `!v || v.trim()...` does not raise: a string, or a falsy value. -/
def JVal.trimmable : JVal → Bool
  | .str _ => true
  | v => !v.truthy

/-! ## Sample data -/

/-- The payload of the scenario of the specification. -/
def penPayload : Body :=
  { name := .str "Pen", description := .str "A blue ink pen", price := .num (.fin 2)
    quantity := .num (.fin 0), category := .str "other" }

/-- An empty collection at time 100. -/
def emptyStore : Store := { docs := [], nextId := 1, now := 100 }

/-- A stored pen with five pieces in stock, written at time 1. -/
def penProduct : Product :=
  { id := 1, name := "Pen", description := "A blue ink pen", price := .fin 2
    quantity := .fin 5, category := "other", inStock := some true
    createdAt := 1, updatedAt := 1 }

/-- A collection holding the pen, at time 7. -/
def penStore : Store := { docs := [penProduct], nextId := 2, now := 7 }

/-! ## Facts about numbers -/

theorem bitLength_spec : ∀ fuel n : Nat, n ≤ fuel →
    n < 2 ^ bitLength fuel n ∧ (n ≠ 0 → 2 ^ (bitLength fuel n - 1) ≤ n) := by
  intro fuel
  induction fuel with
  | zero =>
    intro n hn
    have : n = 0 := Nat.le_zero.mp hn
    subst this
    simp [bitLength]
  | succ f ih =>
    intro n hn
    by_cases h0 : n = 0
    · subst h0
      simp [bitLength]
    · have hle : n / 2 ≤ f := by omega
      obtain ⟨h1, h2⟩ := ih (n / 2) hle
      have hb : bitLength (f + 1) n = bitLength f (n / 2) + 1 := by
        simp [bitLength, h0]
      rw [hb]
      constructor
      · rw [pow_succ]
        omega
      · intro _
        simp only [Nat.add_sub_cancel]
        by_cases hh : n / 2 = 0
        · have hb0 : bitLength f (n / 2) = 0 := by
            rw [hh]
            cases f <;> simp [bitLength]
          rw [hb0]
          simp
          omega
        · have h3 := h2 hh
          have hpos : 0 < bitLength f (n / 2) := by
            rcases Nat.eq_zero_or_pos (bitLength f (n / 2)) with hz | hp
            · rw [hz] at h1
              simp at h1
              exact absurd h1 hh
            · exact hp
          have : 2 ^ bitLength f (n / 2) = 2 * 2 ^ (bitLength f (n / 2) - 1) := by
            conv_lhs => rw [← Nat.sub_add_cancel hpos]
            rw [pow_succ]
            ring
          omega

theorem lt_two_pow_bits (n : Nat) : n < 2 ^ bits n := (bitLength_spec n n le_rfl).1

theorem two_pow_bits_le (n : Nat) (h : n ≠ 0) : 2 ^ (bits n - 1) ≤ n :=
  (bitLength_spec n n le_rfl).2 h

theorem bits_one : bits 1 = 1 := by decide

theorem isBinary64_natCast (n : Nat) (h : n < 2 ^ 53) : isBinary64 (n : ℚ) = true := by
  simp only [isBinary64, Rat.num_natCast, Rat.den_natCast, Int.natAbs_ofNat, bits_one,
    Bool.and_eq_true, Bool.or_eq_true, decide_eq_true_eq]
  exact ⟨⟨by norm_num, by norm_num⟩, Or.inl h⟩

theorem isBinary64_intCast (z : Int) (h : z.natAbs < 2 ^ 53) : isBinary64 (z : ℚ) = true := by
  simp only [isBinary64, Rat.num_intCast, Rat.den_intCast, bits_one,
    Bool.and_eq_true, Bool.or_eq_true, decide_eq_true_eq]
  exact ⟨⟨by norm_num, by norm_num⟩, Or.inl h⟩

theorem roundBinary64_of_isBinary64 (x : ℚ) (h : isBinary64 x = true) :
    roundBinary64 x = .fin x := by
  simp [roundBinary64, h]

theorem roundPositive_cases (x : ℚ) :
    roundPositive x = .pinf ∨
    ∃ (m : Nat) (e : Int), e = max (floorLog2 x.num.natAbs x.den - 52) (-1074) ∧
      roundPositive x = .fin ((m : ℚ) * (2 : ℚ) ^ e) := by
  unfold roundPositive
  simp only []
  split
  · exact Or.inl rfl
  · exact Or.inr ⟨_, _, rfl, rfl⟩

theorem roundBinary64_nonneg (x : ℚ) (hx : 0 ≤ x) :
    roundBinary64 x = .pinf ∨ ∃ r : ℚ, roundBinary64 x = .fin r ∧ 0 ≤ r := by
  unfold roundBinary64
  by_cases hb : isBinary64 x = true
  · rw [if_pos hb]
    exact Or.inr ⟨x, rfl, hx⟩
  · rw [if_neg hb]
    have hpos : 0 < x := by
      rcases lt_or_eq_of_le hx with h | h
      · exact h
      · exfalso
        apply hb
        rw [← h]
        decide
    rw [if_pos hpos]
    rcases roundPositive_cases x with h | ⟨m, e, _, h⟩
    · exact Or.inl h
    · refine Or.inr ⟨_, h, ?_⟩
      have : (0 : ℚ) < (2 : ℚ) ^ e := zpow_pos (by norm_num) e
      positivity

theorem roundBinary64_natCast (n : Nat) :
    roundBinary64 (n : ℚ) = .pinf ∨
    ∃ k : Nat, roundBinary64 (n : ℚ) = .fin (k : ℚ) := by
  by_cases hb : isBinary64 (n : ℚ) = true
  · exact Or.inr ⟨n, roundBinary64_of_isBinary64 _ hb⟩
  · have hn : 2 ^ 53 ≤ n := by
      by_contra hlt
      exact hb (isBinary64_natCast n (not_le.mp hlt))
    have hpos : (0 : ℚ) < (n : ℚ) := by
      have : 0 < n := lt_of_lt_of_le (by norm_num) hn
      exact_mod_cast this
    unfold roundBinary64
    rw [if_neg hb, if_pos hpos]
    rcases roundPositive_cases (n : ℚ) with h | ⟨m, e, he, h⟩
    · exact Or.inl h
    · right
      have hbits : 54 ≤ bits n := by
        by_contra hlt
        have h1 := lt_two_pow_bits n
        have h2 : 2 ^ bits n ≤ 2 ^ 53 := Nat.pow_le_pow_right (by norm_num) (by omega)
        omega
      have hfl : (52 : Int) ≤ floorLog2 (n : ℚ).num.natAbs (n : ℚ).den := by
        simp only [Rat.num_natCast, Rat.den_natCast, Int.natAbs_ofNat, floorLog2, bits_one]
        split <;> omega
      have he0 : 0 ≤ e := by
        rw [he]
        omega
      obtain ⟨k, hk⟩ := Int.eq_ofNat_of_zero_le he0
      refine ⟨m * 2 ^ k, ?_⟩
      rw [h, hk, zpow_natCast]
      push_cast
      rfl


theorem floorLog2_le (n d : Nat) (hn : n ≠ 0) (hd : d ≠ 0) :
    (2 : ℚ) ^ floorLog2 n d * (d : ℚ) ≤ (n : ℚ) := by
  unfold floorLog2
  simp only []
  split
  · assumption
  · have h1 : ((2 ^ (bits n - 1) : Nat) : ℚ) ≤ (n : ℚ) := by
      exact_mod_cast two_pow_bits_le n hn
    have h2 : (d : ℚ) ≤ ((2 ^ bits d : Nat) : ℚ) := by
      exact_mod_cast le_of_lt (lt_two_pow_bits d)
    have hbn : 1 ≤ bits n := by
      by_contra h
      have : bits n = 0 := by omega
      have h3 := lt_two_pow_bits n
      rw [this] at h3
      omega
    have hexp : ((bits n : Int) - (bits d : Int) - 1) + (bits d : Int) = ((bits n - 1 : Nat) : Int) := by
      omega
    have hmul : (2 : ℚ) ^ ((bits n : Int) - (bits d : Int) - 1) * ((2 ^ bits d : Nat) : ℚ) =
        ((2 ^ (bits n - 1) : Nat) : ℚ) := by
      push_cast
      rw [← zpow_natCast (2 : ℚ) (bits d), ← zpow_add₀ (by norm_num : (2 : ℚ) ≠ 0), hexp,
        zpow_natCast]
    calc (2 : ℚ) ^ ((bits n : Int) - (bits d : Int) - 1) * (d : ℚ)
        ≤ (2 : ℚ) ^ ((bits n : Int) - (bits d : Int) - 1) * ((2 ^ bits d : Nat) : ℚ) :=
          mul_le_mul_of_nonneg_left h2 (le_of_lt (zpow_pos (by norm_num) _))
      _ = ((2 ^ (bits n - 1) : Nat) : ℚ) := hmul
      _ ≤ (n : ℚ) := h1

theorem roundHalfEven_le (y : ℚ) (hy : 0 ≤ y) : (roundHalfEven y : ℚ) ≤ y + 1 / 2 := by
  have hfl : 0 ≤ ⌊y⌋ := Int.floor_nonneg.mpr hy
  have hf : ((⌊y⌋.toNat : Nat) : ℚ) = (⌊y⌋ : ℚ) := by
    have : ((⌊y⌋.toNat : Nat) : Int) = ⌊y⌋ := Int.toNat_of_nonneg hfl
    exact_mod_cast congrArg (fun z : Int => (z : ℚ)) this
  have hle : (⌊y⌋ : ℚ) ≤ y := Int.floor_le y
  unfold roundHalfEven
  simp only []
  split
  · rw [hf]
    linarith
  · rename_i h1
    split
    · push_cast
      rw [hf] at h1 ⊢
      linarith
    · rename_i h2
      split
      · rw [hf]
        linarith
      · push_cast
        rw [hf] at h1 ⊢
        linarith

theorem roundPositive_ne_pinf (x : ℚ) (hx0 : 0 < x) (hx : x < (2 : ℚ) ^ (1023 : Int)) :
    roundPositive x ≠ .pinf := by
  have hnum : 0 < x.num := Rat.num_pos.mpr hx0
  have hn : x.num.natAbs ≠ 0 := by
    intro h
    have := Int.natAbs_eq_zero.mp h
    omega
  have hxeq : x = (x.num.natAbs : ℚ) / (x.den : ℚ) := by
    have h1 : ((x.num.natAbs : Nat) : Int) = x.num := Int.natAbs_of_nonneg (le_of_lt hnum)
    have h2 : ((x.num.natAbs : Nat) : ℚ) = (x.num : ℚ) :=
      calc ((x.num.natAbs : Nat) : ℚ) = (((x.num.natAbs : Nat) : Int) : ℚ) :=
            (Int.cast_natCast _).symm
        _ = (x.num : ℚ) := by rw [h1]
    rw [h2]
    exact (Rat.num_div_den x).symm
  have hdpos : (0 : ℚ) < (x.den : ℚ) := by exact_mod_cast x.den_pos
  have hL : (2 : ℚ) ^ floorLog2 x.num.natAbs x.den ≤ x := by
    have := floorLog2_le x.num.natAbs x.den hn x.den_nz
    have h2 : (2 : ℚ) ^ floorLog2 x.num.natAbs x.den ≤ (x.num.natAbs : ℚ) / (x.den : ℚ) := by
      rw [le_div_iff₀ hdpos]
      exact this
    exact le_of_le_of_eq h2 hxeq.symm
  have hL' : floorLog2 x.num.natAbs x.den < 1023 := by
    have := lt_of_le_of_lt hL hx
    exact (zpow_lt_zpow_iff_right₀ (by norm_num : (1 : ℚ) < 2)).mp this
  intro hinf
  unfold roundPositive at hinf
  simp only [] at hinf
  split at hinf
  · rename_i hbig
    set e : Int := max (floorLog2 x.num.natAbs x.den - 52) (-1074) with he
    have he970 : e ≤ 970 := by
      rw [he]
      omega
    have hepos : (0 : ℚ) < (2 : ℚ) ^ e := zpow_pos (by norm_num) e
    have hy : 0 ≤ x / (2 : ℚ) ^ e := le_of_lt (div_pos hx0 hepos)
    have hm := roundHalfEven_le (x / (2 : ℚ) ^ e) hy
    have hv : (roundHalfEven (x / (2 : ℚ) ^ e) : ℚ) * (2 : ℚ) ^ e ≤ x + (2 : ℚ) ^ e / 2 := by
      calc (roundHalfEven (x / (2 : ℚ) ^ e) : ℚ) * (2 : ℚ) ^ e
          ≤ (x / (2 : ℚ) ^ e + 1 / 2) * (2 : ℚ) ^ e :=
            mul_le_mul_of_nonneg_right hm (le_of_lt hepos)
        _ = x + (2 : ℚ) ^ e / 2 := by
            field_simp
            ring
    have he2 : (2 : ℚ) ^ e ≤ (2 : ℚ) ^ (970 : Int) :=
      (zpow_le_zpow_iff_right₀ (by norm_num : (1 : ℚ) < 2)).mpr he970
    have h1024 : (2 : ℚ) ^ (1024 : Int) = 2 * (2 : ℚ) ^ (1023 : Int) := by
      rw [show (1024 : Int) = 1023 + 1 from rfl, zpow_add₀ (by norm_num : (2 : ℚ) ≠ 0)]
      ring
    have h970 : (2 : ℚ) ^ (970 : Int) ≤ (2 : ℚ) ^ (1023 : Int) :=
      (zpow_le_zpow_iff_right₀ (by norm_num : (1 : ℚ) < 2)).mpr (by norm_num)
    have hp : (0 : ℚ) < (2 : ℚ) ^ (1023 : Int) := zpow_pos (by norm_num) _
    linarith
  · cases hinf

theorem two_zpow_floorLog2_le (x : ℚ) (hx0 : 0 < x) :
    (2 : ℚ) ^ floorLog2 x.num.natAbs x.den ≤ x := by
  have hnum : 0 < x.num := Rat.num_pos.mpr hx0
  have hn : x.num.natAbs ≠ 0 := by
    intro h
    have := Int.natAbs_eq_zero.mp h
    omega
  have hxeq : x = (x.num.natAbs : ℚ) / (x.den : ℚ) := by
    have h1 : ((x.num.natAbs : Nat) : Int) = x.num := Int.natAbs_of_nonneg (le_of_lt hnum)
    have h2 : ((x.num.natAbs : Nat) : ℚ) = (x.num : ℚ) :=
      calc ((x.num.natAbs : Nat) : ℚ) = (((x.num.natAbs : Nat) : Int) : ℚ) :=
            (Int.cast_natCast _).symm
        _ = (x.num : ℚ) := by rw [h1]
    rw [h2]
    exact (Rat.num_div_den x).symm
  have hdpos : (0 : ℚ) < (x.den : ℚ) := by exact_mod_cast x.den_pos
  have := floorLog2_le x.num.natAbs x.den hn x.den_nz
  have h2 : (2 : ℚ) ^ floorLog2 x.num.natAbs x.den ≤ (x.num.natAbs : ℚ) / (x.den : ℚ) := by
    rw [le_div_iff₀ hdpos]
    exact this
  exact le_of_le_of_eq h2 hxeq.symm

theorem floor_le_roundHalfEven (y : ℚ) : ⌊y⌋.toNat ≤ roundHalfEven y := by
  unfold roundHalfEven
  simp only []
  split_ifs <;> omega

theorem roundPositive_pos (x : ℚ) (hx : (2 : ℚ) ^ (-1074 : Int) ≤ x) :
    roundPositive x = .pinf ∨ ∃ r : ℚ, roundPositive x = .fin r ∧ 0 < r := by
  have hx0 : 0 < x := lt_of_lt_of_le (zpow_pos (by norm_num) _) hx
  have hL := two_zpow_floorLog2_le x hx0
  unfold roundPositive
  simp only []
  split
  · exact Or.inl rfl
  · refine Or.inr ⟨_, rfl, ?_⟩
    set e : Int := max (floorLog2 x.num.natAbs x.den - 52) (-1074) with he
    have hepos : (0 : ℚ) < (2 : ℚ) ^ e := zpow_pos (by norm_num) e
    have hex : (2 : ℚ) ^ e ≤ x := by
      rcases max_choice (floorLog2 x.num.natAbs x.den - 52) (-1074) with h | h
      · rw [he, h]
        refine le_trans ?_ hL
        exact (zpow_le_zpow_iff_right₀ (by norm_num : (1 : ℚ) < 2)).mpr (by omega)
      · rw [he, h]
        exact hx
    have hy : 1 ≤ x / (2 : ℚ) ^ e := (one_le_div hepos).mpr hex
    have hfl : 1 ≤ ⌊x / (2 : ℚ) ^ e⌋ := Int.le_floor.mpr (by exact_mod_cast hy)
    have hm : 1 ≤ roundHalfEven (x / (2 : ℚ) ^ e) := by
      have := floor_le_roundHalfEven (x / (2 : ℚ) ^ e)
      omega
    have hmq : (0 : ℚ) < (roundHalfEven (x / (2 : ℚ) ^ e) : ℚ) := by exact_mod_cast hm
    exact mul_pos hmq hepos

theorem isBinary64_grid (q : ℚ) (h : isBinary64 q = true) :
    ∃ z : ℤ, q = (z : ℚ) * (2 : ℚ) ^ (-1074 : Int) := by
  simp only [isBinary64, Bool.and_eq_true, decide_eq_true_eq] at h
  obtain ⟨⟨hd, hj⟩, _⟩ := h
  refine ⟨q.num * 2 ^ (1074 - (bits q.den - 1)), ?_⟩
  have hq : q = (q.num : ℚ) / ((2 ^ (bits q.den - 1) : Nat) : ℚ) := by
    rw [hd]
    exact (Rat.num_div_den q).symm
  have hsplit : (2 : ℚ) ^ (1074 : Nat) =
      (2 : ℚ) ^ (1074 - (bits q.den - 1)) * (2 : ℚ) ^ (bits q.den - 1) := by
    rw [← pow_add]
    congr 1
    omega
  have hneg : (2 : ℚ) ^ (-1074 : Int) = 1 / (2 : ℚ) ^ (1074 : Nat) := by
    rw [show (-1074 : Int) = -((1074 : Nat) : Int) from rfl, zpow_neg, zpow_natCast, one_div]
  have hp1 : (0 : ℚ) < (2 : ℚ) ^ (bits q.den - 1) := pow_pos (by norm_num) _
  have hp2 : (0 : ℚ) < (2 : ℚ) ^ (1074 - (bits q.den - 1)) := pow_pos (by norm_num) _
  rw [hneg, hsplit]
  conv_lhs => rw [hq]
  push_cast
  field_simp
  ring

theorem roundBinary64_zero : roundBinary64 0 = .fin 0 := by decide

theorem roundBinary64_sub_pos (q a : ℚ) (hq : isBinary64 q = true) (ha : isBinary64 a = true)
    (h : a < q) : JSNum.gt (roundBinary64 (q - a)) (.fin 0) = true := by
  obtain ⟨z1, h1⟩ := isBinary64_grid q hq
  obtain ⟨z2, h2⟩ := isBinary64_grid a ha
  have hu : (0 : ℚ) < (2 : ℚ) ^ (-1074 : Int) := zpow_pos (by norm_num) _
  have hdiff : q - a = ((z1 - z2 : ℤ) : ℚ) * (2 : ℚ) ^ (-1074 : Int) := by
    rw [h1, h2]
    push_cast
    ring
  have hpos : 0 < q - a := sub_pos.mpr h
  have hz : (0 : ℚ) < ((z1 - z2 : ℤ) : ℚ) := by
    rw [hdiff] at hpos
    exact (mul_pos_iff_of_pos_right hu).mp hpos
  have hz1 : (1 : ℤ) ≤ z1 - z2 := by
    have : (0 : ℤ) < z1 - z2 := by exact_mod_cast hz
    omega
  have hge : (2 : ℚ) ^ (-1074 : Int) ≤ q - a := by
    rw [hdiff]
    have : (1 : ℚ) ≤ ((z1 - z2 : ℤ) : ℚ) := by exact_mod_cast hz1
    calc (2 : ℚ) ^ (-1074 : Int) = 1 * (2 : ℚ) ^ (-1074 : Int) := (one_mul _).symm
      _ ≤ ((z1 - z2 : ℤ) : ℚ) * (2 : ℚ) ^ (-1074 : Int) :=
          mul_le_mul_of_nonneg_right this (le_of_lt hu)
  unfold roundBinary64
  by_cases hb : isBinary64 (q - a) = true
  · rw [if_pos hb]
    simp [JSNum.gt, JSNum.lt, hpos]
  · rw [if_neg hb, if_pos hpos]
    rcases roundPositive_pos (q - a) hge with hp | ⟨r, hr, hr0⟩
    · rw [hp]
      rfl
    · rw [hr]
      simp [JSNum.gt, JSNum.lt, hr0]

theorem roundBinary64_ge_zero (x : ℚ) (hx : 0 ≤ x) :
    JSNum.ge (roundBinary64 x) (.fin 0) = true := by
  rcases roundBinary64_nonneg x hx with h | ⟨r, h, hr⟩
  · rw [h]
    rfl
  · rw [h]
    simp [JSNum.ge, JSNum.le, JSNum.lt, JSNum.isNaN, hr]

theorem roundBinary64_natCast_lt (n : Nat) (h : n < 2 ^ 1023) :
    roundBinary64 (n : ℚ) ≠ .pinf := by
  by_cases hb : isBinary64 (n : ℚ) = true
  · rw [roundBinary64_of_isBinary64 _ hb]
    intro h
    cases h
  · have hn : 2 ^ 53 ≤ n := by
      by_contra hlt
      exact hb (isBinary64_natCast n (not_le.mp hlt))
    have hpos : (0 : ℚ) < (n : ℚ) := by
      have : 0 < n := lt_of_lt_of_le (by norm_num) hn
      exact_mod_cast this
    have hlt : (n : ℚ) < (2 : ℚ) ^ (1023 : Int) := by
      have h1 : ((n : Nat) : ℚ) < ((2 ^ 1023 : Nat) : ℚ) := by exact_mod_cast h
      have h2 : ((2 ^ 1023 : Nat) : ℚ) = (2 : ℚ) ^ (1023 : Int) := by
        rw [show (1023 : Int) = ((1023 : Nat) : Int) from rfl, zpow_natCast, Nat.cast_pow,
          Nat.cast_ofNat]
      rw [← h2]
      exact h1
    unfold roundBinary64
    rw [if_neg hb, if_pos hpos]
    exact roundPositive_ne_pinf _ hpos hlt

theorem JSNum.gt_zero_iff (n : JSNum) :
    JSNum.gt n (.fin 0) = true ↔ n = .pinf ∨ ∃ r : ℚ, n = .fin r ∧ 0 < r := by
  cases n <;> simp [JSNum.gt, JSNum.lt]

theorem JSNum.lt_fin_iff (n : JSNum) (b : ℚ) :
    JSNum.lt n (.fin b) = true ↔ n = .ninf ∨ ∃ r : ℚ, n = .fin r ∧ r < b := by
  cases n <;> simp [JSNum.lt]

theorem JSNum.le_fin_iff (n : JSNum) (b : ℚ) :
    JSNum.le n (.fin b) = true ↔ n = .ninf ∨ ∃ r : ℚ, n = .fin r ∧ r ≤ b := by
  cases n <;> simp [JSNum.le, JSNum.lt, JSNum.isNaN]

theorem JSNum.ge_zero_iff (n : JSNum) :
    JSNum.ge n (.fin 0) = true ↔ n = .pinf ∨ ∃ r : ℚ, n = .fin r ∧ 0 ≤ r := by
  cases n <;> simp [JSNum.ge, JSNum.le, JSNum.lt, JSNum.isNaN]

theorem JSNum.strictEq_zero_of_ge (n : JSNum) (h : JSNum.ge n (.fin 0) = true) :
    JSNum.strictEq n (.fin 0) = !JSNum.gt n (.fin 0) := by
  cases n with
  | nan => simp [JSNum.ge, JSNum.le, JSNum.isNaN] at h
  | ninf => simp [JSNum.ge, JSNum.le, JSNum.lt, JSNum.isNaN] at h
  | pinf => simp [JSNum.strictEq, JSNum.gt, JSNum.lt]
  | fin r =>
    have hr : 0 ≤ r := by simpa [JSNum.ge, JSNum.le, JSNum.lt, JSNum.isNaN] using h
    by_cases h0 : r = 0
    · subst h0
      simp [JSNum.strictEq, JSNum.gt, JSNum.lt]
    · have hpos : 0 < r := lt_of_le_of_ne hr (Ne.symm h0)
      simp [JSNum.strictEq, JSNum.gt, JSNum.lt, h0, hpos]

/-! ## Low stock -/

/-- Claim C5. `isLowStock` holds exactly for the quantities `0 < q < 10`, the query of
`findLowStock` selects exactly the quantities `0 < q <= 10`, the two differ at the
quantity 10 and nowhere else (there the query selects and the virtual is false), both
are false at 0 and both true at 5. -/
theorem lowStock_virtual_and_query (p : Product) :
    (p.isLowStock = true ↔ ∃ r : ℚ, p.quantity = .fin r ∧ 0 < r ∧ r < 10) ∧
    (lowStockQuery p = true ↔ ∃ r : ℚ, p.quantity = .fin r ∧ 0 < r ∧ r ≤ 10) ∧
    (∀ docs : List Product, p ∈ findLowStock docs ↔ p ∈ docs ∧ lowStockQuery p = true) ∧
    (p.isLowStock ≠ lowStockQuery p ↔ p.quantity = .fin 10) ∧
    (p.quantity = .fin 10 → lowStockQuery p = true ∧ p.isLowStock = false) ∧
    (p.quantity = .fin 0 → lowStockQuery p = false ∧ p.isLowStock = false) ∧
    (p.quantity = .fin 5 → lowStockQuery p = true ∧ p.isLowStock = true) := by
  have hv : p.isLowStock = true ↔ ∃ r : ℚ, p.quantity = .fin r ∧ 0 < r ∧ r < 10 := by
    unfold Product.isLowStock
    cases p.quantity <;> simp [JSNum.gt, JSNum.lt]
  have hq : lowStockQuery p = true ↔ ∃ r : ℚ, p.quantity = .fin r ∧ 0 < r ∧ r ≤ 10 := by
    unfold lowStockQuery
    cases p.quantity <;> simp [JSNum.gt, JSNum.le, JSNum.lt, JSNum.isNaN]
  refine ⟨hv, hq, ?_, ?_, ?_, ?_, ?_⟩
  · intro docs
    simp [findLowStock, List.mem_filter]
  · constructor
    · intro hne
      by_cases h1 : lowStockQuery p = true
      · have h2 : ¬ p.isLowStock = true := fun h2 => hne (h2.trans h1.symm)
        obtain ⟨r, hr, h0, h10⟩ := hq.mp h1
        have : ¬ r < 10 := fun hlt => h2 (hv.mpr ⟨r, hr, h0, hlt⟩)
        have : r = 10 := le_antisymm h10 (not_lt.mp this)
        rw [hr, this]
      · have h2 : p.isLowStock = true := by
          cases h : p.isLowStock
          · exact absurd (by rw [h]; cases hh : lowStockQuery p <;> simp_all) hne
          · rfl
        obtain ⟨r, hr, h0, h10⟩ := hv.mp h2
        exact absurd (hq.mpr ⟨r, hr, h0, le_of_lt h10⟩) h1
    · intro h10
      have h1 : lowStockQuery p = true := hq.mpr ⟨10, h10, by norm_num, le_refl _⟩
      have h2 : ¬ p.isLowStock = true := by
        intro h
        obtain ⟨r, hr, _, hlt⟩ := hv.mp h
        rw [h10] at hr
        injection hr with hr
        rw [← hr] at hlt
        exact lt_irrefl _ hlt
      intro h
      exact h2 (h.trans h1)
  · intro h10
    refine ⟨hq.mpr ⟨10, h10, by norm_num, le_refl _⟩, ?_⟩
    cases h : p.isLowStock
    · rfl
    · obtain ⟨r, hr, _, hlt⟩ := hv.mp h
      rw [h10] at hr
      injection hr with hr
      rw [← hr] at hlt
      exact absurd hlt (lt_irrefl _)
  · intro h0
    unfold lowStockQuery Product.isLowStock
    rw [h0]
    simp [JSNum.gt, JSNum.lt]
  · intro h5
    unfold lowStockQuery Product.isLowStock
    rw [h5]
    simp [JSNum.gt, JSNum.lt, JSNum.le, JSNum.isNaN]
    norm_num

/-! ## `reduceStock` -/

/-- Claim C3. When `amount > quantity`, `reduceStock` fails with `Insufficient stock`;
the document (its quantity and its stock flag with it) and the store are as before. -/
theorem reduceStock_insufficient (st : Store) (p : Product) (amount : JSNum)
    (h : JSNum.gt amount p.quantity = true) :
    (reduceStock st p amount).failure = some "Insufficient stock" ∧
    (reduceStock st p amount).doc = p ∧
    (reduceStock st p amount).doc.quantity = p.quantity ∧
    (reduceStock st p amount).doc.inStock = p.inStock ∧
    (reduceStock st p amount).store = st := by
  have h' : JSNum.lt p.quantity amount = true := h
  simp [reduceStock, h']

theorem reduceStock_insufficient_witness :
    JSNum.gt (.fin 6) penProduct.quantity = true ∧
    (reduceStock penStore penProduct (.fin 6)).failure = some "Insufficient stock" ∧
    (reduceStock penStore penProduct (.fin 6)).doc = penProduct ∧
    (reduceStock penStore penProduct (.fin 6)).doc.quantity = penProduct.quantity ∧
    (reduceStock penStore penProduct (.fin 6)).doc.inStock = penProduct.inStock ∧
    (reduceStock penStore penProduct (.fin 6)).store = penStore :=
  ⟨by decide!, reduceStock_insufficient penStore penProduct (.fin 6) (by decide!)⟩

theorem validationErrors_toDraft_iff (p : Product) :
    validationErrors p.toDraft = [] ↔
      nameErrors (.val p.name) = [] ∧ descriptionErrors (.val p.description) = [] ∧
      (p.price.isNaN = false ∧ priceErrors (.val p.price) = []) ∧
      (p.quantity.isNaN = false ∧ quantityErrors (.val p.quantity) = []) ∧
      categoryErrors (.val p.category) = [] := by
  cases hp : p.price.isNaN <;> cases hq : p.quantity.isNaN <;> cases hs : p.inStock <;>
    simp [validationErrors, castErrors, validatorErrors, Product.toDraft, castError, hp, hq, hs,
      and_assoc]

theorem validationErrors_toDraft_quantity (p : Product) (n : JSNum) (b : Option Bool)
    (hn : JSNum.ge n (.fin 0) = true) (h : validationErrors p.toDraft = []) :
    validationErrors ({ p with quantity := n, inStock := b } : Product).toDraft = [] := by
  have hnan : n.isNaN = false := by
    cases n <;> simp [JSNum.ge, JSNum.le, JSNum.isNaN] at hn ⊢
  have hq : quantityErrors (Cast.val n) = [] := by
    simp [quantityErrors, hn]
  rw [validationErrors_toDraft_iff] at h ⊢
  obtain ⟨hnm, hd, hp, _, hc⟩ := h
  exact ⟨hnm, hd, hp, ⟨hnan, hq⟩, hc⟩

theorem preSave_inStock (p : Product) (h : JSNum.ge p.quantity (.fin 0) = true) :
    (preSave p).inStock = some (JSNum.gt p.quantity (.fin 0)) ∧
    (preSave p).quantity = p.quantity := by
  unfold preSave
  rw [JSNum.strictEq_zero_of_ge _ h]
  cases JSNum.gt p.quantity (.fin 0) <;> simp

theorem preSave_frame (p : Product) :
    (preSave p).id = p.id ∧ (preSave p).name = p.name ∧
    (preSave p).description = p.description ∧ (preSave p).price = p.price ∧
    (preSave p).category = p.category ∧ (preSave p).createdAt = p.createdAt ∧
    (preSave p).updatedAt = p.updatedAt := by
  unfold preSave
  split <;> exact ⟨rfl, rfl, rfl, rfl, rfl, rfl, rfl⟩

/-- Claim C4, as amended. For a product stored in the collection that satisfies the
schema, with quantity `q`, and an amount `a <= q` (so in particular for
`0 <= a <= q`), `reduceStock` does not fail; the document it saves is in the store and
its quantity is the binary64 difference of `q` and `a`, which is `>= 0`: exactly
`q - a` whenever `q - a` is a binary64 value, as it is when `q - a` is an integer
below `2 ^ 53`. Its `inStock` is `quantity > 0`, which for binary64 `q` and `a` is
`q - a > 0`. It keeps its identifier, name, description, price, category and
`createdAt`, and its `updatedAt` is either unchanged or the time of the save. -/
theorem reduceStock_within_stock (st : Store) (p : Product) (q a : ℚ)
    (hmem : p ∈ st.docs) (hvalid : validationErrors p.toDraft = [])
    (hq : p.quantity = .fin q) (haq : a ≤ q) :
    (reduceStock st p (.fin a)).failure = none ∧
    (reduceStock st p (.fin a)).doc ∈ (reduceStock st p (.fin a)).store.docs ∧
    (reduceStock st p (.fin a)).doc.quantity = roundBinary64 (q - a) ∧
    JSNum.ge (reduceStock st p (.fin a)).doc.quantity (.fin 0) = true ∧
    (reduceStock st p (.fin a)).doc.inStock =
      some (JSNum.gt (reduceStock st p (.fin a)).doc.quantity (.fin 0)) ∧
    (isBinary64 (q - a) = true →
      (reduceStock st p (.fin a)).doc.quantity = .fin (q - a) ∧ 0 ≤ q - a ∧
      (reduceStock st p (.fin a)).doc.inStock = some (decide (0 < q - a))) ∧
    (∀ z : ℤ, q - a = (z : ℚ) → z.natAbs < 2 ^ 53 →
      (reduceStock st p (.fin a)).doc.quantity = .fin (q - a)) ∧
    (isBinary64 q = true → isBinary64 a = true →
      (reduceStock st p (.fin a)).doc.inStock = some (decide (0 < q - a))) ∧
    (reduceStock st p (.fin a)).doc.id = p.id ∧
    (reduceStock st p (.fin a)).doc.name = p.name ∧
    (reduceStock st p (.fin a)).doc.description = p.description ∧
    (reduceStock st p (.fin a)).doc.price = p.price ∧
    (reduceStock st p (.fin a)).doc.category = p.category ∧
    (reduceStock st p (.fin a)).doc.createdAt = p.createdAt ∧
    ((reduceStock st p (.fin a)).doc.updatedAt = p.updatedAt ∨
      (reduceStock st p (.fin a)).doc.updatedAt = st.now) := by
  have hr : 0 ≤ q - a := sub_nonneg.mpr haq
  have hlt : JSNum.lt p.quantity (.fin a) = false := by
    rw [hq]
    simp [JSNum.lt, haq]
  have hsub : JSNum.sub p.quantity (.fin a) = roundBinary64 (q - a) := by
    rw [hq]
    rfl
  have hge : JSNum.ge (roundBinary64 (q - a)) (.fin 0) = true := roundBinary64_ge_zero _ hr
  -- the in-memory document at the call of `save`
  obtain ⟨doc, hdoc, hdq, hdv, hid, hname, hdesc, hprice, hcat, hcre, hupd⟩ :
      ∃ doc : Product, reduceStock st p (.fin a) = save st p doc ∧
        doc.quantity = roundBinary64 (q - a) ∧ validationErrors doc.toDraft = [] ∧
        doc.id = p.id ∧ doc.name = p.name ∧ doc.description = p.description ∧
        doc.price = p.price ∧ doc.category = p.category ∧ doc.createdAt = p.createdAt ∧
        doc.updatedAt = p.updatedAt := by
    by_cases h0 : JSNum.strictEq (roundBinary64 (q - a)) (.fin 0) = true
    · refine ⟨{ p with quantity := roundBinary64 (q - a), inStock := some false }, ?_, rfl,
        validationErrors_toDraft_quantity p _ _ hge hvalid, rfl, rfl, rfl, rfl, rfl, rfl, rfl⟩
      simp [reduceStock, hlt, hsub, h0]
    · refine ⟨{ p with quantity := roundBinary64 (q - a), inStock := p.inStock }, ?_, rfl,
        validationErrors_toDraft_quantity p _ _ hge hvalid, rfl, rfl, rfl, rfl, rfl, rfl, rfl⟩
      simp [reduceStock, hlt, hsub, h0]
  have hany : ∀ s : Product, s.id = p.id → st.docs.any (fun d => decide (d.id = s.id)) = true := by
    intro s hs
    rw [List.any_eq_true]
    exact ⟨p, hmem, by simp [hs]⟩
  -- the document `save` writes
  obtain ⟨saved, hsaved, hfail, hin, hsq, hsi, hsid, hsname, hsdesc, hsprice, hscat, hscre, hsupd⟩ :
      ∃ saved : Product, (save st p doc).doc = saved ∧ (save st p doc).failure = none ∧
        saved ∈ (save st p doc).store.docs ∧ saved.quantity = roundBinary64 (q - a) ∧
        saved.inStock = some (JSNum.gt (roundBinary64 (q - a)) (.fin 0)) ∧
        saved.id = p.id ∧ saved.name = p.name ∧ saved.description = p.description ∧
        saved.price = p.price ∧ saved.category = p.category ∧ saved.createdAt = p.createdAt ∧
        (saved.updatedAt = p.updatedAt ∨ saved.updatedAt = st.now) := by
    unfold save
    rw [hdv]
    simp only []
    by_cases hmod : doc ≠ p
    · have hsq : ({ doc with updatedAt := st.now } : Product).quantity = roundBinary64 (q - a) :=
        hdq
      obtain ⟨h1, h2⟩ := preSave_inStock { doc with updatedAt := st.now } (by rw [hsq]; exact hge)
      obtain ⟨f1, f2, f3, f4, f5, f6, f7⟩ := preSave_frame { doc with updatedAt := st.now }
      have hid' : (preSave { doc with updatedAt := st.now }).id = p.id := f1.trans hid
      rw [if_pos hmod, if_pos (hany _ hid')]
      refine ⟨_, rfl, rfl, ?_, h2.trans hsq, ?_, hid', f2.trans hname, f3.trans hdesc,
        f4.trans hprice, f5.trans hcat, f6.trans hcre, Or.inr f7⟩
      · simp only [List.mem_map]
        exact ⟨p, hmem, by simp [hid']⟩
      · rw [h1, hsq]
    · obtain ⟨h1, h2⟩ := preSave_inStock doc (by rw [hdq]; exact hge)
      obtain ⟨f1, f2, f3, f4, f5, f6, f7⟩ := preSave_frame doc
      have hid' : (preSave doc).id = p.id := f1.trans hid
      rw [if_neg hmod, if_pos (hany _ hid')]
      refine ⟨_, rfl, rfl, ?_, h2.trans hdq, ?_, hid', f2.trans hname, f3.trans hdesc,
        f4.trans hprice, f5.trans hcat, f6.trans hcre, Or.inl (f7.trans hupd)⟩
      · simp only [List.mem_map]
        exact ⟨p, hmem, by simp [hid']⟩
      · rw [h1, hdq]
  rw [hdoc, hsaved]
  refine ⟨hfail, hin, hsq, ?_, ?_, ?_, ?_, ?_, hsid, hsname, hsdesc, hsprice, hscat, hscre,
    hsupd⟩
  · rw [hsq]
    exact hge
  · rw [hsi, hsq]
  · intro hb
    have hx : roundBinary64 (q - a) = .fin (q - a) := roundBinary64_of_isBinary64 _ hb
    refine ⟨hsq.trans hx, hr, ?_⟩
    rw [hsi, hx]
    simp [JSNum.gt, JSNum.lt]
  · intro z hz hzb
    have hb : isBinary64 (q - a) = true := by
      rw [hz]
      exact isBinary64_intCast z hzb
    exact hsq.trans (roundBinary64_of_isBinary64 _ hb)
  · intro hbq hba
    rw [hsi]
    rcases lt_or_eq_of_le haq with hlt' | heq
    · rw [roundBinary64_sub_pos q a hbq hba hlt']
      simp [sub_pos.mpr hlt']
    · rw [heq, sub_self, roundBinary64_zero]
      simp [JSNum.gt, JSNum.lt]

theorem reduceStock_within_stock_witness :
    penProduct ∈ penStore.docs ∧ validationErrors penProduct.toDraft = [] ∧
    penProduct.quantity = .fin 5 ∧ (2 : ℚ) ≤ 5 ∧
    (reduceStock penStore penProduct (.fin 2)).failure = none ∧
    (reduceStock penStore penProduct (.fin 2)).doc.quantity = roundBinary64 (5 - 2) ∧
    (reduceStock penStore penProduct (.fin 2)).doc.quantity = .fin (5 - 2) ∧
    (reduceStock penStore penProduct (.fin 2)).doc.inStock = some (decide ((0 : ℚ) < 5 - 2)) ∧
    (reduceStock { penStore with docs := [{ penProduct with quantity := .fin 10000000000000000 }] }
      { penProduct with quantity := .fin 10000000000000000 } (.fin 1)).doc.quantity =
      .fin 10000000000000000 :=
  have h := reduceStock_within_stock penStore penProduct 5 2 (by decide!) (by decide!) rfl
    (by norm_num)
  ⟨by decide!, by decide!, rfl, by norm_num, h.1, h.2.2.1,
    (h.2.2.2.2.2.1 (by decide!)).1, (h.2.2.2.2.2.1 (by decide!)).2.2, by decide!⟩

/-- Claim C4, as stated, fails. Reducing the stored pen (written at time 1) by 2 at time 7
succeeds and saves a document whose `updatedAt` is 7: a field other than `quantity`
and `inStock` has changed. -/
theorem reduceStock_moves_updatedAt :
    (reduceStock penStore penProduct (.fin 2)).failure = none ∧
    (reduceStock penStore penProduct (.fin 2)).doc.updatedAt = 7 ∧
    penProduct.updatedAt = 1 := by
  decide!

/-! ## Creating a product -/

theorem quantity_of_validationErrors (d : Draft) (q : JSNum)
    (h : validationErrors d = []) (hq : d.quantity = .val q) :
    JSNum.ge q (.fin 0) = true := by
  simp only [validationErrors, validatorErrors, List.append_eq_nil] at h
  have h4 : quantityErrors d.quantity = [] := h.2.1.2
  rw [hq] at h4
  cases hge : JSNum.ge q (.fin 0)
  · simp [quantityErrors, hge] at h4
  · rfl

/-- Claim C1. A payload that passes `validateProduct` and that `Product.create` accepts
is answered 201 with the product that was appended to the collection; its quantity is
a non-negative number (0 when the payload has none, the supplied number when it has
one) and its `inStock` is `quantity > 0`, whatever `inStock` the payload carried. -/
theorem create_sets_inStock (st st' : Store) (body : Body) (p : Product)
    (hv : validateProduct body = .next) (hc : Product.create st body = .ok (p, st')) :
    postProduct st body =
      (.replied { status := 201, success := true
                  message := some "Product created successfully", data := some p }, st') ∧
    st'.docs = st.docs ++ [p] ∧
    JSNum.ge p.quantity (.fin 0) = true ∧
    p.inStock = some (JSNum.gt p.quantity (.fin 0)) ∧
    (body.quantity = .undefined → p.quantity = .fin 0) ∧
    (∀ n, body.quantity = .num n → p.quantity = n) := by
  have hpost : postProduct st body =
      (.replied { status := 201, success := true
                  message := some "Product created successfully", data := some p }, st') := by
    simp [postProduct, hv, createProduct, hc]
  refine ⟨hpost, ?_⟩
  unfold Product.create at hc
  simp only [] at hc
  split at hc
  · cases hc
  · rename_i hval
    have hval' : validationErrors (newDocument body) = [] := not_not.mp hval
    split at hc
    · cases hc
    · rename_i p0 hp0
      simp only [Except.ok.injEq, Prod.mk.injEq] at hc
      obtain ⟨hp, hst⟩ := hc
      unfold Draft.toProduct at hp0
      split at hp0
      · rename_i n ds pr q c hn hds hpr hq hcat
        injection hp0 with hp0
        have hq0 : p0.quantity = q := by rw [← hp0]
        have hge : JSNum.ge p0.quantity (.fin 0) = true := by
          rw [hq0]
          exact quantity_of_validationErrors _ q hval' hq
        obtain ⟨h1, h2⟩ := preSave_inStock p0 hge
        rw [← hp]
        refine ⟨?_, ?_, ?_, ?_, ?_⟩
        · rw [← hst]
        · rw [h2]
          exact hge
        · rw [h1, h2]
        · intro hu
          rw [h2, hq0]
          have : (newDocument body).quantity = .val (.fin 0) := by
            simp [newDocument, castBody, hu, castNumber, withDefault]
          rw [this] at hq
          injection hq with hq
          exact hq.symm
        · intro m hm
          rw [h2, hq0]
          have : (newDocument body).quantity = (if m.isNaN then .bad else .val m) := by
            simp only [newDocument, castBody, hm, castNumber]
            split <;> rfl
          rw [this] at hq
          split at hq
          · cases hq
          · injection hq with hq
            exact hq.symm
      · cases hp0

theorem create_sets_inStock_witness :
    validateProduct penPayload = .next ∧
    Product.create emptyStore penPayload =
      .ok ({ id := 1, name := "Pen", description := "A blue ink pen", price := .fin 2
             quantity := .fin 0, category := "other", inStock := some false
             createdAt := 100, updatedAt := 100 },
           { docs := [{ id := 1, name := "Pen", description := "A blue ink pen"
                        price := .fin 2, quantity := .fin 0, category := "other"
                        inStock := some false, createdAt := 100, updatedAt := 100 }]
             nextId := 2, now := 100 }) ∧
    (some false : Option Bool) = some (JSNum.gt (.fin 0) (.fin 0)) :=
  have hc : Product.create emptyStore penPayload =
      .ok ({ id := 1, name := "Pen", description := "A blue ink pen", price := .fin 2
             quantity := .fin 0, category := "other", inStock := some false
             createdAt := 100, updatedAt := 100 },
           { docs := [{ id := 1, name := "Pen", description := "A blue ink pen"
                        price := .fin 2, quantity := .fin 0, category := "other"
                        inStock := some false, createdAt := 100, updatedAt := 100 }]
             nextId := 2, now := 100 }) := by
    rfl
  ⟨by decide!, hc, (create_sets_inStock _ _ penPayload _ (by decide!) hc).2.2.2.1⟩

/-! ## Updating a product -/

/-- Claim C2, the code at the failing input. Updating the stored pen (quantity 5, in
stock) with the scenario payload (quantity 0, no `inStock`) is answered 200 with
quantity 0 and `inStock` still true; and an update that keeps quantity 5 and carries
`inStock: false` is stored with `inStock` false. The pre-save hook does not run on
`findByIdAndUpdate`. -/
theorem update_leaves_inStock :
    putProduct penStore (.oid 1) penPayload =
      (.replied { status := 200, success := true
                  message := some "Product updated successfully"
                  data := some { penProduct with quantity := .fin 0, updatedAt := 7 } },
       { penStore with docs := [{ penProduct with quantity := .fin 0, updatedAt := 7 }] }) ∧
    ({ penProduct with quantity := .fin 0, updatedAt := 7 } : Product).inStock = some true ∧
    (putProduct penStore (.oid 1)
        { penPayload with quantity := .num (.fin 5), inStock := .bool false }).1 =
      .replied { status := 200, success := true
                 message := some "Product updated successfully"
                 data := some { penProduct with inStock := some false, updatedAt := 7 } } := by
  decide!

/-! ## `validateProduct` on ill-typed fields -/

/-- Claim C9, the code at the failing input. With `name: 123`, with `description: true`
and with an object as `name`, `validateProduct` raises a `TypeError` instead of
calling `next()` or answering 400. -/
theorem validateProduct_raises :
    validateProduct { penPayload with name := .num (.fin 123) } =
      .throws "TypeError: trim is not a function" ∧
    validateProduct { penPayload with description := .bool true } =
      .throws "TypeError: trim is not a function" ∧
    validateProduct { penPayload with name := .obj } =
      .throws "TypeError: trim is not a function" := by
  decide!

/-! ## The filter of `getAllProducts` -/

/-- Claim C6, as stated, fails. With `inStock=maybe` the filter carries the constraint
`inStock: false`, which the filter of the empty query does not; on the collection
holding the pen (in stock) the first selects nothing and the second selects the pen. -/
theorem inStock_maybe_constrains :
    buildFilter { inStock := some "maybe" } = { inStock := some false } ∧
    buildFilter { } = { } ∧
    find (buildFilter { inStock := some "maybe" }) penStore.docs = [] ∧
    find (buildFilter { }) penStore.docs = [penProduct] := by
  decide!

/-- Claim C6, as amended. For an `inStock` parameter that is any string other than
`"true"`, the filter built is the filter of the same query without `inStock`, with the
constraint `inStock: false` added; it selects the products that the query without
`inStock` selects and whose `inStock` is false. -/
theorem buildFilter_inStock_other (q : Query) (s : String) (hs : s ≠ "true") :
    buildFilter { q with inStock := some s } =
      { buildFilter { q with inStock := none } with inStock := some false } ∧
    (∀ p : Product, matchesFilter (buildFilter { q with inStock := some s }) p =
      (matchesFilter (buildFilter { q with inStock := none }) p &&
        decide (p.inStock = some false))) ∧
    (∀ docs : List Product, find (buildFilter { q with inStock := some s }) docs =
      (find (buildFilter { q with inStock := none }) docs).filter
        (fun p => decide (p.inStock = some false))) := by
  have hf : buildFilter { q with inStock := some s } =
      { buildFilter { q with inStock := none } with inStock := some false } := by
    simp [buildFilter, hs]
  have hm : ∀ p : Product, matchesFilter (buildFilter { q with inStock := some s }) p =
      (matchesFilter (buildFilter { q with inStock := none }) p &&
        decide (p.inStock = some false)) := by
    intro p
    rw [hf]
    simp [matchesFilter, buildFilter]
  refine ⟨hf, hm, ?_⟩
  intro docs
  unfold find
  rw [List.filter_filter]
  congr 1
  funext p
  rw [hm p, Bool.and_comm]

theorem buildFilter_inStock_other_witness :
    "maybe" ≠ "true" ∧
    buildFilter { ({ category := some "books" } : Query) with inStock := some "maybe" } =
      { buildFilter { ({ category := some "books" } : Query) with inStock := none } with
        inStock := some false } :=
  ⟨by decide, (buildFilter_inStock_other { category := some "books" } "maybe" (by decide)).1⟩

/-! ## Pagination -/

theorem isJSWhiteSpace_of_isDigit (c : Char) (h : c.isDigit = true) : isJSWhiteSpace c = false := by
  have h1 : 48 ≤ c.toNat ∧ c.toNat ≤ 57 := by
    simp only [Char.isDigit, Bool.and_eq_true, decide_eq_true_eq] at h
    exact ⟨h.1, h.2⟩
  simp only [isJSWhiteSpace, Bool.or_eq_false_iff, Bool.and_eq_false_iff, decide_eq_false_iff_not]
  omega

theorem dropWhile_of_all_false {α : Type} (f : α → Bool) (l : List α)
    (h : ∀ x ∈ l, f x = false) : l.dropWhile f = l := by
  cases l with
  | nil => rfl
  | cons x xs => simp [List.dropWhile, h x (List.mem_cons_self _ _)]

theorem trimChars_of_digits (cs : List Char) (h : ∀ c ∈ cs, c.isDigit = true) :
    trimChars cs = cs := by
  have hw : ∀ c ∈ cs, isJSWhiteSpace c = false := fun c hc => isJSWhiteSpace_of_isDigit c (h c hc)
  unfold trimChars
  rw [dropWhile_of_all_false _ _ hw, dropWhile_of_all_false _ _ (by simpa using hw),
    List.reverse_reverse]

theorem span_of_all {α : Type} (f : α → Bool) (l : List α) (h : ∀ x ∈ l, f x = true) :
    l.span f = (l, []) := by
  rw [List.span_eq_take_drop]
  have h1 : l.takeWhile f = l := List.takeWhile_eq_self_iff.mpr h
  have h2 : l.dropWhile f = [] := List.dropWhile_eq_nil_iff.mpr h
  rw [h1, h2]

theorem numberOfChars_of_digits (cs : List Char) (hne : cs ≠ [])
    (h : ∀ c ∈ cs, c.isDigit = true) :
    numberOfChars cs = roundBinary64 (digitsToNat cs : ℚ) := by
  have hspan : cs.span Char.isDigit = (cs, []) := span_of_all _ _ h
  have hinf : cs ≠ "Infinity".toList := by
    intro he
    have hI : ('I').isDigit = true := h 'I' (by rw [he]; decide)
    exact absurd hI (by decide)
  have hmag : parseMagnitude cs = some (roundBinary64 (digitsToNat cs : ℚ)) := by
    unfold parseMagnitude
    rw [if_neg hinf]
    unfold parseUnsignedDecimal
    simp only [hspan]
    simp [parseExponent, scale10, hne]
  have hsecond : ∀ (a b : Char) (r : List Char), cs = a :: b :: r → b.isDigit = true :=
    fun a b r he => h b (by rw [he]; exact List.mem_cons_of_mem _ (List.mem_cons_self _ _))
  have hfirst : ∀ (a : Char) (r : List Char), cs = a :: r → a.isDigit = true :=
    fun a r he => h a (by rw [he]; exact List.mem_cons_self _ _)
  unfold numberOfChars
  split
  · exact absurd rfl hne
  · exact absurd (hsecond _ _ _ rfl) (by decide)
  · exact absurd (hsecond _ _ _ rfl) (by decide)
  · exact absurd (hsecond _ _ _ rfl) (by decide)
  · exact absurd (hsecond _ _ _ rfl) (by decide)
  · exact absurd (hsecond _ _ _ rfl) (by decide)
  · exact absurd (hsecond _ _ _ rfl) (by decide)
  · exact absurd (hfirst _ _ rfl) (by decide)
  · exact absurd (hfirst _ _ rfl) (by decide)
  · rw [hmag]
    rfl

theorem stringToNumber_of_digits (cs : List Char) (hne : cs ≠ [])
    (h : ∀ c ∈ cs, c.isDigit = true) :
    stringToNumber (String.mk cs) = roundBinary64 (digitsToNat cs : ℚ) := by
  unfold stringToNumber
  rw [show (String.mk cs).toList = cs from rfl, trimChars_of_digits cs h]
  exact numberOfChars_of_digits cs hne h

theorem isInteger_natCast (n : Nat) :
    JSNum.isInteger (.fin (n : ℚ)) = true ∧ JSNum.ge (.fin (n : ℚ)) (.fin 0) = true := by
  simp [JSNum.isInteger, JSNum.ge, JSNum.le, JSNum.lt, JSNum.isNaN]

/-- Claim C7, as stated, fails. For `limit=-5&skip=abc` the pagination applied and
reported is `limit = -5` and `skip = NaN`, not the defaults 10 and 0. -/
theorem pagination_no_fallback :
    pagination { limit := some "-5", skip := some "abc" } = { limit := .fin (-5), skip := .nan } ∧
    pagination { } = { limit := .fin 10, skip := .fin 0 } := by
  decide!

theorem digits_value (n : Nat) :
    (roundBinary64 (n : ℚ) = .pinf ∨
      ((roundBinary64 (n : ℚ)).isInteger = true ∧
        JSNum.ge (roundBinary64 (n : ℚ)) (.fin 0) = true)) ∧
    (n < 2 ^ 53 → roundBinary64 (n : ℚ) = .fin (n : ℚ)) ∧
    (n < 2 ^ 1023 → roundBinary64 (n : ℚ) ≠ .pinf) := by
  refine ⟨?_, fun h => roundBinary64_of_isBinary64 _ (isBinary64_natCast n h),
    roundBinary64_natCast_lt n⟩
  rcases roundBinary64_natCast n with h | ⟨k, h⟩
  · exact Or.inl h
  · rw [h]
    exact Or.inr (isInteger_natCast k)

/-- Claim C7, as amended. The pagination applied and reported has `limit = 10` when
`limit` is absent and `skip = 0` when `skip` is absent; a supplied value is coerced by
`Number()` and used as it comes out, with no fallback. When the supplied text is a
non-empty run of decimal digits the value is the binary64 number nearest to the
digits: a non-negative integer, equal to the digits below `2 ^ 53`, and `Infinity`
only for digits of `2 ^ 1023` and more. An answer 200 reports exactly this
pagination. -/
theorem pagination_coerces (q : Query) :
    (q.limit = none → (pagination q).limit = .fin 10) ∧
    (q.skip = none → (pagination q).skip = .fin 0) ∧
    (∀ s, q.limit = some s → (pagination q).limit = stringToNumber s) ∧
    (∀ s, q.skip = some s → (pagination q).skip = stringToNumber s) ∧
    (∀ cs : List Char, cs ≠ [] → (∀ c ∈ cs, c.isDigit = true) → q.limit = some (String.mk cs) →
      (pagination q).limit = roundBinary64 (digitsToNat cs : ℚ) ∧
      ((pagination q).limit = .pinf ∨
        ((pagination q).limit.isInteger = true ∧
          JSNum.ge (pagination q).limit (.fin 0) = true)) ∧
      (digitsToNat cs < 2 ^ 53 → (pagination q).limit = .fin (digitsToNat cs : ℚ)) ∧
      (digitsToNat cs < 2 ^ 1023 → (pagination q).limit ≠ .pinf)) ∧
    (∀ cs : List Char, cs ≠ [] → (∀ c ∈ cs, c.isDigit = true) → q.skip = some (String.mk cs) →
      (pagination q).skip = roundBinary64 (digitsToNat cs : ℚ) ∧
      ((pagination q).skip = .pinf ∨
        ((pagination q).skip.isInteger = true ∧
          JSNum.ge (pagination q).skip (.fin 0) = true)) ∧
      (digitsToNat cs < 2 ^ 53 → (pagination q).skip = .fin (digitsToNat cs : ℚ)) ∧
      (digitsToNat cs < 2 ^ 1023 → (pagination q).skip ≠ .pinf)) ∧
    (∀ (db : Cursor) (st : Store), (getAllProducts db st q).status = 200 →
      (getAllProducts db st q).pagination = some (pagination q)) := by
  refine ⟨?_, ?_, ?_, ?_, ?_, ?_, ?_⟩
  · intro h
    simp [pagination, h]
  · intro h
    simp [pagination, h]
  · intro s h
    simp [pagination, h]
  · intro s h
    simp [pagination, h]
  · intro cs hne hd h
    have hl : (pagination q).limit = roundBinary64 (digitsToNat cs : ℚ) := by
      simp only [pagination, h]
      exact stringToNumber_of_digits cs hne hd
    rw [hl]
    exact ⟨rfl, digits_value _⟩
  · intro cs hne hd h
    have hl : (pagination q).skip = roundBinary64 (digitsToNat cs : ℚ) := by
      simp only [pagination, h]
      exact stringToNumber_of_digits cs hne hd
    rw [hl]
    exact ⟨rfl, digits_value _⟩
  · intro db st h
    unfold getAllProducts at h ⊢
    simp only [] at h ⊢
    split
    · rename_i m hm
      rw [hm] at h
      simp at h
    · rename_i hm
      rw [hm] at h
      simp only [] at h
      split
      · rename_i m hp
        rw [hp] at h
        simp at h
      · rfl

theorem pagination_coerces_witness :
    (pagination { limit := some "25" }).limit = .fin (digitsToNat "25".toList : ℚ) ∧
    (pagination { limit := some "25" }).skip = .fin 0 ∧
    (pagination { limit := some "-5" }).limit = stringToNumber "-5" ∧
    (pagination { limit := some (String.mk ('1' :: List.replicate 309 '0')) }).limit = .pinf :=
  ⟨((pagination_coerces { limit := some "25" }).2.2.2.2.1 "25".toList (by decide)
      (by decide) rfl).2.2.1 (by decide),
   (pagination_coerces { limit := some "25" }).2.1 rfl,
   (pagination_coerces { limit := some "-5" }).2.2.1 "-5" rfl,
   by decide!⟩

theorem lowStock_virtual_and_query_witness :
    penProduct.quantity = .fin 5 ∧ lowStockQuery penProduct = true ∧
    penProduct.isLowStock = true :=
  ⟨rfl, (lowStock_virtual_and_query penProduct).2.2.2.2.2.2 rfl⟩

/-! ## An inverted price range -/

theorem range_empty (a b x : JSNum) (h : JSNum.gt a b = true) :
    (JSNum.ge x a && JSNum.le x b) = false := by
  cases a <;> cases b <;> cases x <;>
    simp [JSNum.gt, JSNum.ge, JSNum.le, JSNum.lt, JSNum.isNaN] at h ⊢
  rename_i a b x
  intro hax
  exact lt_of_lt_of_le h hax

theorem listPage_nil (l s : JSNum) (hl : l.isSafeInteger = true)
    (hs : s.isSafeInteger = true) (hs0 : JSNum.ge s (.fin 0) = true) :
    listPage l s [] = .ok [] := by
  cases l with
  | fin a =>
    cases s with
    | fin b =>
      have hb0 : 0 ≤ b := by simpa [JSNum.ge, JSNum.le, JSNum.lt, JSNum.isNaN] using hs0
      simp [listPage, hl, hs, hb0]
    | nan => simp [JSNum.isSafeInteger] at hs
    | ninf => simp [JSNum.isSafeInteger] at hs
    | pinf => simp [JSNum.isSafeInteger] at hs
  | nan => simp [JSNum.isSafeInteger] at hl
  | ninf => simp [JSNum.isSafeInteger] at hl
  | pinf => simp [JSNum.isSafeInteger] at hl

/-- Claim C10, as stated, fails. The texts `2.0000000000000001` and `2` are numeric and
the first denotes the larger number, but `Number()` rounds both to 2: the filter built
from `minPrice=2.0000000000000001&maxPrice=2` is `price: { $gte: 2, $lte: 2 }`, which
selects the stored pen (price 2), and the handler answers with it and total 1. -/
theorem rounded_bounds_select :
    parseUnsignedDecimal "2.0000000000000001".toList =
      some (20000000000000001 / 10000000000000000) ∧
    parseUnsignedDecimal "2".toList = some 2 ∧
    (2 : ℚ) < 20000000000000001 / 10000000000000000 ∧
    numericText "2.0000000000000001" = true ∧ numericText "2" = true ∧
    buildFilter { minPrice := some "2.0000000000000001", maxPrice := some "2" } =
      { price := some { gte := some (.fin 2), lte := some (.fin 2) } } ∧
    find (buildFilter { minPrice := some "2.0000000000000001", maxPrice := some "2" })
      penStore.docs = [penProduct] ∧
    getAllProducts listCursor penStore
        { minPrice := some "2.0000000000000001", maxPrice := some "2" } =
      { status := 200, success := true, count := some 1, total := some 1
        pagination := some { limit := .fin 10, skip := .fin 0 }, data := some [penProduct] } := by
  decide!

/-- Claim C10, as amended. When `minPrice` and `maxPrice` are numeric and
`Number(minPrice) > Number(maxPrice)` (the binary64 values the handler compares with),
the filter built has the condition
`price: { $gte: Number(minPrice), $lte: Number(maxPrice) }`, no product matches it,
`find` selects nothing from any collection and `countDocuments` is 0. The handler
answers 200 with an empty list, count 0 and total 0, unless the database refuses to
page the empty selection for the `limit` and `skip` it was handed (then 500 with its
message); the in-memory cursor pages whenever `limit` is a safe integer and `skip` a
non-negative safe integer, as they are when absent. -/
theorem inverted_price_range (db : Cursor) (st : Store) (q : Query) (smin smax : String)
    (hmin : q.minPrice = some smin) (hmax : q.maxPrice = some smax)
    (hnmin : numericText smin = true) (hnmax : numericText smax = true)
    (hgt : JSNum.gt (stringToNumber smin) (stringToNumber smax) = true) :
    (buildFilter q).price =
      some { gte := some (stringToNumber smin), lte := some (stringToNumber smax) } ∧
    (∀ p : Product, matchesFilter (buildFilter q) p = false) ∧
    find (buildFilter q) st.docs = [] ∧
    countDocuments (buildFilter q) st.docs = 0 ∧
    (getAllProducts db st q =
        { status := 200, success := true, count := some 0, total := some 0
          pagination := some (pagination q), data := some [] } ∨
      ∃ m, db.page (pagination q).limit (pagination q).skip [] = .error m ∧
        getAllProducts db st q =
          { status := 500, success := false, error := some "Failed to fetch products"
            details := some m }) ∧
    ((pagination q).limit.isSafeInteger = true → (pagination q).skip.isSafeInteger = true →
      JSNum.ge (pagination q).skip (.fin 0) = true →
      getAllProducts listCursor st q =
        { status := 200, success := true, count := some 0, total := some 0
          pagination := some (pagination q), data := some [] }) ∧
    (q.limit = none → q.skip = none →
      getAllProducts listCursor st q =
        { status := 200, success := true, count := some 0, total := some 0
          pagination := some { limit := .fin 10, skip := .fin 0 }, data := some [] }) := by
  have hpmin : present (some smin) = true := by
    simp only [numericText, Bool.and_eq_true] at hnmin
    simpa [present] using hnmin.1
  have hpmax : present (some smax) = true := by
    simp only [numericText, Bool.and_eq_true] at hnmax
    simpa [present] using hnmax.1
  have hnan1 : (stringToNumber smin).isNaN = false := by
    simp only [numericText, Bool.and_eq_true, Bool.not_eq_true'] at hnmin
    exact hnmin.2
  have hnan2 : (stringToNumber smax).isNaN = false := by
    simp only [numericText, Bool.and_eq_true, Bool.not_eq_true'] at hnmax
    exact hnmax.2
  have hprice : (buildFilter q).price =
      some { gte := some (stringToNumber smin), lte := some (stringToNumber smax) } := by
    simp [buildFilter, hmin, hmax, hpmin, hpmax]
  have hno : ∀ p : Product, matchesFilter (buildFilter q) p = false := by
    intro p
    unfold matchesFilter
    rw [hprice]
    simp only [Range.holds, range_empty _ _ p.price hgt]
    simp
  have hfind : find (buildFilter q) st.docs = [] := by
    unfold find
    rw [List.filter_eq_nil_iff]
    intro p _
    simp [hno p]
  have hcount : countDocuments (buildFilter q) st.docs = 0 := by
    simp [countDocuments, hfind]
  have hcast : filterCastError (buildFilter q) = none := by
    unfold filterCastError
    rw [hprice]
    simp [hnan1, hnan2]
  have hgen : ∀ c : Cursor,
      getAllProducts c st q =
        { status := 200, success := true, count := some 0, total := some 0
          pagination := some (pagination q), data := some [] } ∨
      ∃ m, c.page (pagination q).limit (pagination q).skip [] = .error m ∧
        getAllProducts c st q =
          { status := 500, success := false, error := some "Failed to fetch products"
            details := some m } := by
    intro c
    unfold getAllProducts
    simp only [hcast, hfind, hcount, sortNewestFirst, List.insertionSort]
    cases hpage : c.page (pagination q).limit (pagination q).skip [] with
    | error m => exact Or.inr ⟨m, rfl, rfl⟩
    | ok ys =>
      have hys : ys = [] := List.sublist_nil.mp (c.sound _ _ _ _ hpage)
      subst hys
      exact Or.inl rfl
  have hlist : (pagination q).limit.isSafeInteger = true →
      (pagination q).skip.isSafeInteger = true →
      JSNum.ge (pagination q).skip (.fin 0) = true →
      getAllProducts listCursor st q =
        { status := 200, success := true, count := some 0, total := some 0
          pagination := some (pagination q), data := some [] } := by
    intro hl hs hs0
    rcases hgen listCursor with h | ⟨m, hm, _⟩
    · exact h
    · have hok : listCursor.page (pagination q).limit (pagination q).skip [] = .ok [] :=
        listPage_nil _ _ hl hs hs0
      rw [hok] at hm
      cases hm
  refine ⟨hprice, hno, hfind, hcount, hgen db, hlist, ?_⟩
  intro hl hs
  have hpag : pagination q = { limit := .fin 10, skip := .fin 0 } := by
    simp [pagination, hl, hs]
  have h := hlist (by rw [hpag]; decide) (by rw [hpag]; decide) (by rw [hpag]; decide)
  rw [h, hpag]

theorem inverted_price_range_witness :
    numericText "10" = true ∧ numericText "5" = true ∧
    JSNum.gt (stringToNumber "10") (stringToNumber "5") = true ∧
    find (buildFilter { minPrice := some "10", maxPrice := some "5" }) penStore.docs = [] ∧
    countDocuments (buildFilter { minPrice := some "10", maxPrice := some "5" })
      penStore.docs = 0 ∧
    getAllProducts listCursor penStore { minPrice := some "10", maxPrice := some "5" } =
      { status := 200, success := true, count := some 0, total := some 0
        pagination := some { limit := .fin 10, skip := .fin 0 }, data := some [] } :=
  have h := inverted_price_range listCursor penStore
    { minPrice := some "10", maxPrice := some "5" } "10" "5" rfl rfl
    (by decide!) (by decide!) (by decide!)
  ⟨by decide!, by decide!, by decide!, h.2.2.1, h.2.2.2.1, h.2.2.2.2.2.2 rfl rfl⟩

/-! ## Rejected payloads -/

theorem unitsLength_trimChars_le (cs : List Char) :
    unitsLength (trimChars cs) ≤ unitsLength cs := by
  have hsub : (trimChars cs).Sublist cs := by
    unfold trimChars
    have h1 : ((cs.dropWhile isJSWhiteSpace).reverse.dropWhile isJSWhiteSpace).Sublist
        (cs.dropWhile isJSWhiteSpace).reverse := List.dropWhile_sublist _
    have h2 := List.reverse_sublist.mpr h1
    rw [List.reverse_reverse] at h2
    exact h2.trans (List.dropWhile_sublist _)
  unfold unitsLength
  exact List.Sublist.sum_le_sum (hsub.map _) (fun _ _ => Nat.zero_le _)

theorem jsLength_jsTrim_le (s : String) : jsLength (jsTrim s) ≤ jsLength s :=
  unitsLength_trimChars_le s.toList

theorem tooShort_of_trimmable (v : JVal) (m : Nat) (h : v.trimmable = true) :
    ∃ b, tooShort v m = .ok b ∧ ∀ s, v = .str s → jsLength (jsTrim s) < m → b = true := by
  cases v with
  | str s =>
    by_cases ht : (JVal.str s).truthy = true
    · refine ⟨decide (jsLength (jsTrim s) < m), by simp [tooShort, ht], ?_⟩
      intro s' hs hlt
      injection hs with hs
      subst hs
      simpa using hlt
    · exact ⟨true, by simp [tooShort, ht], fun _ _ _ => rfl⟩
  | undefined => exact ⟨true, by simp [tooShort, JVal.truthy], fun _ _ _ => rfl⟩
  | null => exact ⟨true, by simp [tooShort, JVal.truthy], fun _ _ _ => rfl⟩
  | bool b =>
    have hb : b = false := by simpa [JVal.trimmable, JVal.truthy] using h
    subst hb
    exact ⟨true, by simp [tooShort, JVal.truthy], fun _ _ _ => rfl⟩
  | num n =>
    have hn : (JVal.num n).truthy = false := by simpa [JVal.trimmable] using h
    exact ⟨true, by simp [tooShort, hn], fun _ _ _ => rfl⟩
  | obj => simp [JVal.trimmable, JVal.truthy] at h

theorem validateProduct_of_trimmable (body : Body)
    (hn : body.name.trimmable = true) (hd : body.description.trimmable = true) :
    (∃ errs, validateProduct body = .respond 400 "Validation failed" errs ∧ errs ≠ [] ∧
      (∀ s, body.name = .str s → jsLength (jsTrim s) < 2 →
        "Name must be at least 2 characters" ∈ errs) ∧
      (∀ s, body.description = .str s → jsLength (jsTrim s) < 10 →
        "Description must be at least 10 characters" ∈ errs)) ∨
    (validateProduct body = .next ∧
      (∀ s, body.name = .str s → ¬ jsLength (jsTrim s) < 2) ∧
      (∀ s, body.description = .str s → ¬ jsLength (jsTrim s) < 10) ∧
      priceRejected body.price = false) := by
  obtain ⟨b1, h1, h1'⟩ := tooShort_of_trimmable body.name 2 hn
  obtain ⟨b2, h2, h2'⟩ := tooShort_of_trimmable body.description 10 hd
  unfold validateProduct
  rw [h1, h2]
  cases b1 <;> cases b2 <;> cases hp : priceRejected body.price <;>
    cases hc : body.category.truthy <;> simp_all

theorem createProduct_of_errors (st : Store) (body : Body)
    (h : validationErrors (newDocument body) ≠ []) :
    createProduct st body =
      ({ status := 400, success := false, error := some "Validation failed"
         details := .list (validationErrors (newDocument body)) }, st) := by
  simp [createProduct, Product.create, h]

theorem categoryErrors_of_outside (body : Body) (s : String)
    (hs : body.category = .str s) (hout : jsTrim s ∉ categories) :
    categoryErrors (newDocument body).category ≠ [] ∧
    (jsLength (jsTrim s) ≠ 0 → categoryMessage ∈ categoryErrors (newDocument body).category) := by
  have hc : (newDocument body).category = .val (jsTrim s) := by
    simp [newDocument, castBody, hs, castString]
  rw [hc]
  by_cases h0 : jsLength (jsTrim s) = 0
  · simp [categoryErrors, h0]
  · simp [categoryErrors, h0, hout]

theorem priceErrors_of_fraction (body : Body) (n : JSNum)
    (hn : body.price = .num n) (hint : n.isInteger = false) :
    castError "Number" "price" (newDocument body).price ++
      priceErrors (newDocument body).price ≠ [] := by
  have hc : (newDocument body).price = (if n.isNaN then .bad else .val n) := by
    simp only [newDocument, castBody, hn, castNumber]
  rw [hc]
  by_cases hnan : n.isNaN = true
  · simp [hnan, castError]
  · by_cases hge : JSNum.ge n (.fin 0) = true
    · simp [hnan, castError, priceErrors, hge, hint]
    · simp [hnan, castError, priceErrors, hge]

theorem categoryMessage_lists :
    ∀ c ∈ categories, c.toList <:+: categoryMessage.toList := by
  decide!

/-- Claim C8, as amended. Take a create payload whose name and description are strings
or falsy values. If the name has trimmed length below 2, or the description has
length below 10, or the category is a string whose trimmed text is outside the enum,
or the price is a number that is negative or not an integer, then
`POST /api/products` answers 400 `Validation failed` with a non-empty list of
messages and the collection is unchanged. A short name puts
`Name must be at least 2 characters` in the list, a short description
`Description must be at least 10 characters`, and when the payload passes
`validateProduct` a non-empty trimmed category outside the enum puts the category
message, whose text contains each of the six categories. -/
theorem post_rejects_invalid (st : Store) (body : Body)
    (hname : body.name.trimmable = true) (hdesc : body.description.trimmable = true)
    (hbad : (∃ s, body.name = .str s ∧ jsLength (jsTrim s) < 2) ∨
      (∃ s, body.description = .str s ∧ jsLength s < 10) ∨
      (∃ s, body.category = .str s ∧ jsTrim s ∉ categories) ∨
      (∃ n, body.price = .num n ∧ (JSNum.lt n (.fin 0) = true ∨ n.isInteger = false))) :
    (∃ details : List String,
      postProduct st body =
        (.replied { status := 400, success := false, error := some "Validation failed"
                    details := .list details }, st) ∧
      details ≠ [] ∧
      ((∃ s, body.name = .str s ∧ jsLength (jsTrim s) < 2) →
        "Name must be at least 2 characters" ∈ details) ∧
      ((∃ s, body.description = .str s ∧ jsLength s < 10) →
        "Description must be at least 10 characters" ∈ details) ∧
      (validateProduct body = .next →
        (∃ s, body.category = .str s ∧ jsTrim s ∉ categories ∧ jsLength (jsTrim s) ≠ 0) →
        categoryMessage ∈ details)) ∧
    (∀ c ∈ categories, c.toList <:+: categoryMessage.toList) := by
  refine ⟨?_, categoryMessage_lists⟩
  rcases validateProduct_of_trimmable body hname hdesc with
    ⟨errs, hv, hne, hnm, hdm⟩ | ⟨hv, hnn, hnd, hpr⟩
  · refine ⟨errs, ?_, hne, ?_, ?_, ?_⟩
    · simp [postProduct, hv, middlewareReply]
    · rintro ⟨s, hs, hlt⟩
      exact hnm s hs hlt
    · rintro ⟨s, hs, hlt⟩
      exact hdm s hs (lt_of_le_of_lt (jsLength_jsTrim_le s) hlt)
    · intro hnext
      rw [hv] at hnext
      cases hnext
  · have herr : validationErrors (newDocument body) ≠ [] := by
      rcases hbad with ⟨s, hs, hlt⟩ | ⟨s, hs, hlt⟩ | ⟨s, hs, hout⟩ | ⟨n, hn, hneg | hint⟩
      · exact absurd hlt (hnn s hs)
      · exact absurd (lt_of_le_of_lt (jsLength_jsTrim_le s) hlt) (hnd s hs)
      · have h := (categoryErrors_of_outside body s hs hout).1
        intro h0
        simp only [validationErrors, validatorErrors, List.append_eq_nil] at h0
        exact h h0.2.2
      · rw [hn] at hpr
        simp [priceRejected, JVal.toNumber, hneg] at hpr
      · have h := priceErrors_of_fraction body n hn hint
        intro h0
        simp only [validationErrors, castErrors, validatorErrors, List.append_eq_nil] at h0
        exact h (List.append_eq_nil.mpr ⟨h0.1.1.1.1.2, h0.2.1.1.2⟩)
    refine ⟨validationErrors (newDocument body), ?_, herr, ?_, ?_, ?_⟩
    · simp [postProduct, hv, createProduct_of_errors st body herr]
    · rintro ⟨s, hs, hlt⟩
      exact absurd hlt (hnn s hs)
    · rintro ⟨s, hs, hlt⟩
      exact absurd (lt_of_le_of_lt (jsLength_jsTrim_le s) hlt) (hnd s hs)
    · rintro _ ⟨s, hs, hout, hlen⟩
      have h := (categoryErrors_of_outside body s hs hout).2 hlen
      simp only [validationErrors, validatorErrors, List.mem_append]
      exact Or.inr (Or.inr h)

theorem post_rejects_invalid_witness :
    (∃ details : List String,
      postProduct emptyStore { penPayload with category := .str "toys" } =
        (.replied { status := 400, success := false, error := some "Validation failed"
                    details := .list details }, emptyStore) ∧
      details ≠ []) ∧
    postProduct emptyStore { penPayload with category := .str "toys" } =
      (.replied { status := 400, success := false, error := some "Validation failed"
                  details := .list [categoryMessage] }, emptyStore) :=
  have h := (post_rejects_invalid emptyStore { penPayload with category := .str "toys" }
    (by decide) (by decide) (Or.inr (Or.inr (Or.inl ⟨"toys", rfl, by decide⟩)))).1
  ⟨h.elim (fun d hd => ⟨d, hd.1, hd.2.1⟩), by decide!⟩

/-- Claim C8, as stated, fails. The category `" other "` (with a space on each side) is
not one of the six categories, yet the payload carrying it is accepted: the answer is
201 and the product is stored, with the trimmed category `other`. -/
theorem padded_category_accepted :
    " other " ∉ categories ∧
    postProduct emptyStore { penPayload with category := .str " other " } =
      (.replied { status := 201, success := true
                  message := some "Product created successfully"
                  data := some { id := 1, name := "Pen", description := "A blue ink pen"
                                 price := .fin 2, quantity := .fin 0, category := "other"
                                 inStock := some false, createdAt := 100, updatedAt := 100 } },
       { docs := [{ id := 1, name := "Pen", description := "A blue ink pen"
                    price := .fin 2, quantity := .fin 0, category := "other"
                    inStock := some false, createdAt := 100, updatedAt := 100 }]
         nextId := 2, now := 100 }) := by
  decide!

end BackendLearn
